import Mathlib

/-! # asdxTimer.h : Timer and StopWatch


Shallow embedding of `src/D3D12_Triangle/SimpleSample/include/asdxTimer.h`.

Modelling conventions.

* `s64` values are `Int`.  Signed overflow is undefined behaviour in C++, so the
  model describes the executions in which every `s64` intermediate stays in range;
  no wrap-around is modelled.  `m_TicksPerSec / 10` is C++ integer division
  (truncation toward zero), i.e. `Int.tdiv`.
* `f64` values are `ℚ`: exact arithmetic, no rounding, no infinities, no NaN.  The
  conversion of an `s64` to `double` is the cast `Int → ℚ`.  For a frequency of 0 the
  C++ reciprocal `1.0 / 0.0` is an infinity, which `ℚ` does not have (`1 / 0 = 0`
  there); the embedding describes the constructor for a nonzero frequency.
* Where two `f64` results are compared with each other, rounding decides.  For that
  the `StopWatch` constructor and `GetElapsedTimeSec` are also given in binary64
  (`ctorF64`, `GetElapsedTimeSecF64`), and `GetElapsedTimeMsec` is given in binary64
  only (`GetElapsedTimeMsecF64`): every conversion, product and quotient is rounded to
  the nearest double, ties to even (`roundF64`), and an operation has a value only
  when its exact result is 0 or lies in the normal range from `2^-1022` to `2^1023`,
  where neither overflow nor underflow occurs (`checkedF64`).
* `QueryPerformanceFrequency` and `QueryPerformanceCounter` are the environment.
  The constructor takes the frequency the platform reports; every method that may
  call `QueryPerformanceCounter` takes the reading that call would obtain as its
  `counter` argument (the argument is ignored on the paths that do not sample).
* A non-`const` method returns the new object next to its result, so that what it
  leaves unchanged is a statement and not a convention.
-/

namespace asdx

/-! ## class Timer -/

/-- Data members of `class Timer`, one field each, in declaration order. -/
structure Timer where
  m_IsStop : Bool
  m_TicksPerSec : Int
  m_StopTime : Int
  m_ElapsedTime : Int
  m_BaseTime : Int
  m_InvTicksPerSec : ℚ
deriving DecidableEq

/-- Constructor `Timer::Timer()` (a definition named `Timer.Timer` would shadow the type);
`freq` is what `QueryPerformanceFrequency` reports. -/
def Timer.ctor (freq : Int) : Timer :=
  { m_IsStop := true
    m_StopTime := 0
    m_ElapsedTime := 0
    m_BaseTime := 0
    m_TicksPerSec := freq
    m_InvTicksPerSec := 1 / (freq : ℚ) }

/-- Private `GetAdjustedCurrentTime`: the frozen stop time when it is nonzero,
otherwise a live counter sample. -/
def Timer.GetAdjustedCurrentTime (tm : Timer) (counter : Int) : Int :=
  if tm.m_StopTime ≠ 0 then tm.m_StopTime else counter

/-- Method `Reset()`. -/
def Timer.Reset (tm : Timer) (counter : Int) : Timer :=
  let qwTime := tm.GetAdjustedCurrentTime counter
  { tm with
    m_BaseTime := qwTime
    m_ElapsedTime := qwTime
    m_StopTime := 0
    m_IsStop := false }

/-- Method `Start()`. -/
def Timer.Start (tm : Timer) (counter : Int) : Timer :=
  let qwTime := counter
  let base := if tm.m_IsStop then tm.m_BaseTime + (qwTime - tm.m_StopTime) else tm.m_BaseTime
  { tm with
    m_BaseTime := base
    m_StopTime := 0
    m_ElapsedTime := qwTime
    m_IsStop := false }

/-- Method `Stop()`. -/
def Timer.Stop (tm : Timer) (counter : Int) : Timer :=
  if !tm.m_IsStop then
    let qwTime := counter
    { tm with
      m_StopTime := qwTime
      m_ElapsedTime := qwTime
      m_IsStop := true }
  else tm

/-- Method `Advance()`. -/
def Timer.Advance (tm : Timer) : Timer :=
  { tm with m_StopTime := tm.m_StopTime + tm.m_TicksPerSec.tdiv 10 }

/-- Method `IsStop() const`. -/
def Timer.IsStop (tm : Timer) : Bool :=
  tm.m_IsStop

/-- Method `GetAbsoluteTime()`. -/
def Timer.GetAbsoluteTime (tm : Timer) (counter : Int) : ℚ × Timer :=
  let qwTime := counter
  ((qwTime : ℚ) * tm.m_InvTicksPerSec, tm)

/-- Method `GetTime()`. -/
def Timer.GetTime (tm : Timer) (counter : Int) : ℚ × Timer :=
  let qwTime := tm.GetAdjustedCurrentTime counter
  (((qwTime - tm.m_BaseTime : Int) : ℚ) * tm.m_InvTicksPerSec, tm)

/-- Method `GetElapsedTime()`. -/
def Timer.GetElapsedTime (tm : Timer) (counter : Int) : ℚ × Timer :=
  let qwTime := tm.GetAdjustedCurrentTime counter
  let elapsedTime := ((qwTime - tm.m_ElapsedTime : Int) : ℚ) * tm.m_InvTicksPerSec
  let tm1 := { tm with m_ElapsedTime := qwTime }
  let elapsedTime := if elapsedTime < 0 then 0 else elapsedTime
  (elapsedTime, tm1)

/-- The three `out` parameters of `GetValues`. -/
structure Values where
  time : ℚ
  absoluteTime : ℚ
  elapsedTime : ℚ
deriving DecidableEq

/-- Method `GetValues( time, absoluteTime, elapsedTime )`. -/
def Timer.GetValues (tm : Timer) (counter : Int) : Values × Timer :=
  let qwTime := tm.GetAdjustedCurrentTime counter
  let diffTime := ((qwTime - tm.m_ElapsedTime : Int) : ℚ) * tm.m_InvTicksPerSec
  let tm1 := { tm with m_ElapsedTime := qwTime }
  let diffTime := if diffTime < 0 then 0 else diffTime
  ({ absoluteTime := (qwTime : ℚ) * tm1.m_InvTicksPerSec
     time := ((qwTime - tm1.m_BaseTime : Int) : ℚ) * tm1.m_InvTicksPerSec
     elapsedTime := diffTime }, tm1)

/-! ## class StopWatch -/

/-- Data members of `class StopWatch`. -/
structure StopWatch where
  m_TicksPerSec : Int
  m_StartTime : Int
  m_EndTime : Int
  m_InvTicksPerSec : ℚ
deriving DecidableEq

/-- Constructor `StopWatch::StopWatch()`. -/
def StopWatch.ctor (freq : Int) : StopWatch :=
  { m_StartTime := 0
    m_EndTime := 0
    m_TicksPerSec := freq
    m_InvTicksPerSec := 1 / (freq : ℚ) }

/-- Method `Start()`. -/
def StopWatch.Start (sw : StopWatch) (counter : Int) : StopWatch :=
  { sw with m_StartTime := counter }

/-- Method `End()`. -/
def StopWatch.End (sw : StopWatch) (counter : Int) : StopWatch :=
  { sw with m_EndTime := counter }

/-- Method `GetElapsedTimeSec()`. -/
def StopWatch.GetElapsedTimeSec (sw : StopWatch) : ℚ × StopWatch :=
  (((sw.m_EndTime - sw.m_StartTime : Int) : ℚ) * sw.m_InvTicksPerSec, sw)

/-! ## Sequences of public calls -/

/-- The public methods of `Timer`. -/
inductive Call where
  | reset
  | start
  | stop
  | advance
  | isStop
  | getAbsoluteTime
  | getTime
  | getElapsedTime
  | getValues
deriving DecidableEq

/-- The object after one public call made while the counter reads `counter`. -/
def Timer.step (tm : Timer) (call : Call) (counter : Int) : Timer :=
  match call with
  | Call.reset => tm.Reset counter
  | Call.start => tm.Start counter
  | Call.stop => tm.Stop counter
  | Call.advance => tm.Advance
  | Call.isStop => tm
  | Call.getAbsoluteTime => (tm.GetAbsoluteTime counter).2
  | Call.getTime => (tm.GetTime counter).2
  | Call.getElapsedTime => (tm.GetElapsedTime counter).2
  | Call.getValues => (tm.GetValues counter).2

/-- The object after a sequence of public calls, each paired with the counter
reading at the moment of the call. -/
def Timer.run (tm : Timer) (calls : List (Call × Int)) : Timer :=
  calls.foldl (fun t p => t.step p.1 p.2) tm

/-- The queries `GetTime()`, `GetAbsoluteTime()` and `GetElapsedTime()`. -/
def Call.isTimeQuery : Call → Bool
  | Call.getTime => true
  | Call.getAbsoluteTime => true
  | Call.getElapsedTime => true
  | _ => false

/-- The cached reciprocal is the reciprocal of the stored frequency: what the
constructor establishes by `m_InvTicksPerSec = 1.0 / static_cast<double>( m_TicksPerSec )`;
no method writes either member afterwards. -/
def Timer.Calibrated (tm : Timer) : Prop :=
  tm.m_InvTicksPerSec = 1 / (tm.m_TicksPerSec : ℚ)

/-- One pause/resume cycle: `Stop()` while the counter reads `p.1`, then `Start()`
while it reads `p.2`. -/
def Timer.pauseResume (tm : Timer) (p : Int × Int) : Timer :=
  (tm.Stop p.1).Start p.2

/-- A list of pause/resume cycles, in order. -/
def Timer.pauseResumeAll (tm : Timer) (cycles : List (Int × Int)) : Timer :=
  cycles.foldl Timer.pauseResume tm

/-- Total number of ticks spent paused over a list of pause/resume cycles. -/
def pausedTicks (cycles : List (Int × Int)) : Int :=
  (cycles.map (fun p => p.2 - p.1)).sum

/-- The cached reciprocal of a StopWatch is the reciprocal of its stored frequency, as
its constructor sets it; no method writes either member afterwards. -/
def StopWatch.Calibrated (sw : StopWatch) : Prop :=
  sw.m_InvTicksPerSec = 1 / (sw.m_TicksPerSec : ℚ)

/-- The calls that drive the stop flag: `Reset()`, `Start()` and `Stop()`. -/
def Call.isControl : Call → Bool
  | Call.reset => true
  | Call.start => true
  | Call.stop => true
  | _ => false

/-- The last call among `Reset()`/`Start()`/`Stop()` in a sequence, if there is one. -/
def lastControl (calls : List (Call × Int)) : Option Call :=
  ((calls.map Prod.fst).filter Call.isControl).getLast?

/-- The caller contract of `Advance()` along a sequence of calls: every `Advance()` is
made while `IsStop()` is true. -/
def Timer.AdvanceOnlyStopped (tm : Timer) : List (Call × Int) → Prop
  | [] => True
  | p :: rest =>
    (p.1 = Call.advance → tm.IsStop = true) ∧ (tm.step p.1 p.2).AdvanceOnlyStopped rest

/-- Successive `GetElapsedTime()` polls at the given counter readings: the sum of the
values returned, and the object after the last poll. -/
def Timer.elapsedSum (tm : Timer) : List Int → ℚ × Timer
  | [] => (0, tm)
  | c :: rest =>
    let r := tm.GetElapsedTime c
    let s := r.2.elapsedSum rest
    (r.1 + s.1, s.2)

/-- The stop flag and the stop time agree and the frequency is not negative: a running
Timer has `m_StopTime = 0`, a stopped one has a positive `m_StopTime`. -/
def Timer.Synced (tm : Timer) : Prop :=
  0 ≤ tm.m_TicksPerSec ∧
  ((tm.m_IsStop = false ∧ tm.m_StopTime = 0) ∨ (tm.m_IsStop = true ∧ 0 < tm.m_StopTime))

/-- The base time is bounded by what the counter has read so far: `last` is the most
recent counter reading (0 before any call).  A frozen Timer has its base at or before
the stop time, which is at or before `last`; a running one has its base at or before
`last`; a Timer with the stop flag set and nothing frozen has a base that is not
positive. -/
def Timer.BaseBounded (tm : Timer) (last : Int) : Prop :=
  0 ≤ last ∧
  (tm.m_StopTime ≠ 0 →
    tm.m_IsStop = true ∧ tm.m_BaseTime ≤ tm.m_StopTime ∧ tm.m_StopTime ≤ last) ∧
  (tm.m_StopTime = 0 → tm.m_IsStop = true → tm.m_BaseTime ≤ 0) ∧
  (tm.m_StopTime = 0 → tm.m_IsStop = false → tm.m_BaseTime ≤ last)

/-! ## binary64 readouts of StopWatch -/

/-- Round a rational to the nearest integer, ties to the even one. -/
def roundTiesEven (s : ℚ) : Int :=
  if s - (Int.floor s : ℚ) < 1 / 2 then Int.floor s
  else if 1 / 2 < s - (Int.floor s : ℚ) then Int.floor s + 1
  else if Int.floor s % 2 = 0 then Int.floor s
  else Int.floor s + 1

/-- IEEE 754 binary64 rounding of an exact value, round to nearest, ties to even: with
`2^e ≤ |x| < 2^(e+1)` the value is rounded to a multiple of `2^(e-52)`, that is to 53
significant bits.  The exponent is not bounded here; `checkedF64` adds the range. -/
def roundF64 (x : ℚ) : ℚ :=
  if x = 0 then 0
  else (roundTiesEven (x / (2 : ℚ) ^ (Int.log 2 |x| - 52)) : ℚ) * (2 : ℚ) ^ (Int.log 2 |x| - 52)

/-- Result of a binary64 operation whose exact value is `x`: the rounded value when `x`
is 0 or `2^-1022 ≤ |x| ≤ 2^1023` (a normal double: no underflow, no overflow), and no
value otherwise. -/
def checkedF64 (x : ℚ) : Option ℚ :=
  if x = 0 ∨ ((2 : ℚ) ^ (-1022 : ℤ) ≤ |x| ∧ |x| ≤ (2 : ℚ) ^ (1023 : ℤ)) then some (roundF64 x)
  else none


/-- Constructor `StopWatch::StopWatch()` in binary64: the frequency is converted to
`double` and the reciprocal `1.0 / static_cast<double>( m_TicksPerSec )` is rounded
(no value when the divisor is 0, where the C++ quotient is an infinity). -/
def StopWatch.ctorF64 (freq : Int) : Option StopWatch :=
  (checkedF64 (freq : ℚ)).bind fun f =>
    if f = 0 then none
    else (checkedF64 (1 / f)).bind fun inv =>
      some { m_StartTime := 0
             m_EndTime := 0
             m_TicksPerSec := freq
             m_InvTicksPerSec := inv }

/-- Method `GetElapsedTimeSec()` in binary64: the tick difference is converted to
`double`, and its product with the reciprocal is rounded. -/
def StopWatch.GetElapsedTimeSecF64 (sw : StopWatch) : Option (ℚ × StopWatch) :=
  (checkedF64 ((sw.m_EndTime - sw.m_StartTime : Int) : ℚ)).bind fun d =>
    (checkedF64 (d * sw.m_InvTicksPerSec)).bind fun r => some (r, sw)

/-- Method `GetElapsedTimeMsec()` in binary64: the tick difference is converted to
`double`, its product with `1000.0` is rounded, and the product of that with the
reciprocal is rounded. -/
def StopWatch.GetElapsedTimeMsecF64 (sw : StopWatch) : Option (ℚ × StopWatch) :=
  (checkedF64 ((sw.m_EndTime - sw.m_StartTime : Int) : ℚ)).bind fun d =>
    (checkedF64 (d * 1000)).bind fun y =>
      (checkedF64 (y * sw.m_InvTicksPerSec)).bind fun r => some (r, sw)

/-! ## Basic facts about the embedding -/

theorem Timer.ctor_calibrated (freq : Int) : (Timer.ctor freq).Calibrated := rfl

theorem Timer.step_calibrated (tm : Timer) (call : Call) (counter : Int)
    (h : tm.Calibrated) : (tm.step call counter).Calibrated := by
  cases call <;>
    simp only [Timer.step, Timer.Reset, Timer.Start, Timer.Stop, Timer.Advance,
      Timer.GetAbsoluteTime, Timer.GetTime, Timer.GetElapsedTime, Timer.GetValues,
      Timer.Calibrated] at h ⊢ <;>
    first
      | exact h
      | (split <;> exact h)

theorem Timer.run_nil (tm : Timer) : tm.run [] = tm := rfl

theorem Timer.run_cons (tm : Timer) (p : Call × Int) (calls : List (Call × Int)) :
    tm.run (p :: calls) = (tm.step p.1 p.2).run calls := rfl

theorem Timer.run_calibrated (tm : Timer) (calls : List (Call × Int))
    (h : tm.Calibrated) : (tm.run calls).Calibrated := by
  induction calls generalizing tm with
  | nil => exact h
  | cons p rest ih =>
    rw [Timer.run_cons]
    exact ih _ (Timer.step_calibrated tm p.1 p.2 h)

/-- A time query leaves every member but the elapsed-time mark as it was. -/
theorem Timer.step_query_frame (tm : Timer) (call : Call) (counter : Int)
    (hq : call.isTimeQuery = true) :
    (tm.step call counter).m_StopTime = tm.m_StopTime ∧
    (tm.step call counter).m_BaseTime = tm.m_BaseTime ∧
    (tm.step call counter).m_IsStop = tm.m_IsStop ∧
    (tm.step call counter).m_TicksPerSec = tm.m_TicksPerSec ∧
    (tm.step call counter).m_InvTicksPerSec = tm.m_InvTicksPerSec := by
  cases call <;> simp [Call.isTimeQuery] at hq <;>
    simp [Timer.step, Timer.GetAbsoluteTime, Timer.GetTime, Timer.GetElapsedTime]

theorem Timer.run_queries_frame (tm : Timer) (qs : List (Call × Int))
    (hq : ∀ p ∈ qs, p.1.isTimeQuery = true) :
    (tm.run qs).m_StopTime = tm.m_StopTime ∧
    (tm.run qs).m_BaseTime = tm.m_BaseTime ∧
    (tm.run qs).m_IsStop = tm.m_IsStop ∧
    (tm.run qs).m_TicksPerSec = tm.m_TicksPerSec ∧
    (tm.run qs).m_InvTicksPerSec = tm.m_InvTicksPerSec := by
  induction qs generalizing tm with
  | nil => simp [Timer.run_nil]
  | cons p rest ih =>
    rw [Timer.run_cons]
    have hp := Timer.step_query_frame tm p.1 p.2 (hq p (List.mem_cons_self p rest))
    have hr := ih (tm.step p.1 p.2) (fun q hqm => hq q (List.mem_cons_of_mem p hqm))
    obtain ⟨h1, h2, h3, h4, h5⟩ := hp
    obtain ⟨r1, r2, r3, r4, r5⟩ := hr
    exact ⟨r1.trans h1, r2.trans h2, r3.trans h3, r4.trans h4, r5.trans h5⟩

/-! ## Timer: elapsed time is never negative -/

/-- C1. For every Timer state reached by any sequence of public calls from any
state, and every counter reading, the value `GetElapsedTime()` returns and the
`elapsedTime` output of `GetValues()` are not negative; nothing is assumed about how
the counter reading compares with the stored elapsed-time mark. -/
theorem Timer.elapsed_time_never_negative (tm : Timer) (calls : List (Call × Int))
    (counter : Int) :
    0 ≤ ((tm.run calls).GetElapsedTime counter).1 ∧
    0 ≤ ((tm.run calls).GetValues counter).1.elapsedTime := by
  constructor
  · simp only [Timer.GetElapsedTime]
    split
    · exact le_refl 0
    · rename_i h
      exact not_lt.mp h
  · simp only [Timer.GetValues]
    split
    · exact le_refl 0
    · rename_i h
      exact not_lt.mp h

/-! ## Timer: pause and resume -/

/-- C2, as stated, fails on a freshly constructed Timer (stop flag set, `m_StopTime`
zero): with 10 ticks per second `GetTime()` at counter 5 returns 1/2, `Stop()` at 5 does
nothing, `Start()` at 8 moves the base to 8 and `GetTime()` at 8 returns 0. -/
theorem Timer.resume_continuity_fails_on_fresh :
    ((Timer.ctor 10).GetTime 5).1 = 1 / 2 ∧
    (((((Timer.ctor 10).GetTime 5).2.Stop 5).Start 8).GetTime 8).1 = 0 ∧
    ¬ (∀ (tm : Timer) (s t : Int),
        ((((tm.GetTime s).2.Stop s).Start t).GetTime t).1 = (tm.GetTime s).1) := by
  have h1 : ((Timer.ctor 10).GetTime 5).1 = 1 / 2 := by
    norm_num [Timer.ctor, Timer.GetTime, Timer.GetAdjustedCurrentTime]
  have h2 : (((((Timer.ctor 10).GetTime 5).2.Stop 5).Start 8).GetTime 8).1 = 0 := by
    norm_num [Timer.ctor, Timer.GetTime, Timer.GetAdjustedCurrentTime, Timer.Stop,
      Timer.Start]
  refine ⟨h1, h2, fun h => ?_⟩
  have h3 := h (Timer.ctor 10) 5 8
  rw [h1, h2] at h3
  norm_num at h3

/-- C2, amended. For every Timer whose stop flag mirrors `m_StopTime` (`IsStop()` is
true exactly when `m_StopTime` is nonzero) and all counter readings `s` and `t`, the
value `GetTime()` returns at `t` right after `Stop()` at `s` and `Start()` at `t` equals
the value `GetTime()` returned at `s` right before the `Stop()`. -/
theorem Timer.resume_continuity (tm : Timer) (s t : Int)
    (hmirror : tm.m_IsStop = true ↔ tm.m_StopTime ≠ 0) :
    ((((tm.GetTime s).2.Stop s).Start t).GetTime t).1 = (tm.GetTime s).1 := by
  cases hflag : tm.m_IsStop
  · have h0 : tm.m_StopTime = 0 := by
      by_contra hne
      have := hmirror.mpr hne
      simp [hflag] at this
    simp [Timer.GetTime, Timer.GetAdjustedCurrentTime, Timer.Stop, Timer.Start, hflag, h0]
    left
    ring
  · have hne : tm.m_StopTime ≠ 0 := hmirror.mp hflag
    simp [Timer.GetTime, Timer.GetAdjustedCurrentTime, Timer.Stop, Timer.Start, hflag, hne]
    left
    ring

theorem Timer.resume_continuity_witness :
    ((((Timer.ctor 10).Reset 1).m_IsStop = true ↔ ((Timer.ctor 10).Reset 1).m_StopTime ≠ 0)) ∧
    ((((((Timer.ctor 10).Reset 1).GetTime 5).2.Stop 5).Start 8).GetTime 8).1
      = (((Timer.ctor 10).Reset 1).GetTime 5).1 :=
  ⟨by simp [Timer.ctor, Timer.Reset],
   Timer.resume_continuity ((Timer.ctor 10).Reset 1) 5 8 (by simp [Timer.ctor, Timer.Reset])⟩

/-- C3, as stated, fails on a freshly constructed Timer: `Stop()` finds the stop flag
already set and freezes nothing, `m_StopTime` stays 0, and with 10 ticks per second
`GetTime()` returns 1/2 at counter 5 and 7/10 at counter 7. -/
theorem Timer.time_after_stop_not_constant_on_fresh :
    (((Timer.ctor 10).Stop 3).GetTime 5).1 = 1 / 2 ∧
    (((((Timer.ctor 10).Stop 3).GetTime 5).2).GetTime 7).1 = 7 / 10 ∧
    ¬ (∀ (tm : Timer) (s : Int) (qs : List (Call × Int)) (c c' : Int),
        (∀ p ∈ qs, p.1.isTimeQuery = true) →
        (((tm.Stop s).run qs).GetTime c).1 = ((tm.Stop s).GetTime c').1) := by
  have h1 : (((Timer.ctor 10).Stop 3).GetTime 5).1 = 1 / 2 := by
    norm_num [Timer.ctor, Timer.GetTime, Timer.GetAdjustedCurrentTime, Timer.Stop]
  have h2 : (((((Timer.ctor 10).Stop 3).GetTime 5).2).GetTime 7).1 = 7 / 10 := by
    norm_num [Timer.ctor, Timer.GetTime, Timer.GetAdjustedCurrentTime, Timer.Stop]
  refine ⟨h1, h2, fun h => ?_⟩
  have h3 := h (Timer.ctor 10) 3 [(Call.getTime, 5)] 7 5
    (by intro p hp; simp at hp; subst hp; rfl)
  have h4 : (((Timer.ctor 10).Stop 3).run [(Call.getTime, 5)])
      = (((Timer.ctor 10).Stop 3).GetTime 5).2 := rfl
  rw [h4, h2, h1] at h3
  norm_num at h3

/-- C3, amended. When `Stop()` leaves the Timer with a nonzero `m_StopTime` (it froze a
nonzero counter reading, or the Timer was already frozen at one), every later
`GetTime()` returns one and the same value, however many `GetTime()`,
`GetAbsoluteTime()` and `GetElapsedTime()` calls are made in between and whatever the
live counter reads at each call. -/
theorem Timer.time_constant_after_stop (tm : Timer) (s : Int) (qs : List (Call × Int))
    (c c' : Int) (hq : ∀ p ∈ qs, p.1.isTimeQuery = true)
    (hfrozen : (tm.Stop s).m_StopTime ≠ 0) :
    (((tm.Stop s).run qs).GetTime c).1 = ((tm.Stop s).GetTime c').1 := by
  obtain ⟨hs, hb, _, _, hi⟩ := Timer.run_queries_frame (tm.Stop s) qs hq
  have hfrozen2 : ((tm.Stop s).run qs).m_StopTime ≠ 0 := by rw [hs]; exact hfrozen
  simp only [Timer.GetTime, Timer.GetAdjustedCurrentTime, if_pos hfrozen, if_pos hfrozen2,
    hs, hb, hi]

theorem Timer.time_constant_after_stop_witness :
    (∀ p ∈ [(Call.getElapsedTime, (7 : Int)), (Call.getAbsoluteTime, 8), (Call.getTime, 9)],
      p.1.isTimeQuery = true) ∧
    (((Timer.ctor 10).Reset 1).Stop 5).m_StopTime ≠ 0 ∧
    (((((Timer.ctor 10).Reset 1).Stop 5).run
        [(Call.getElapsedTime, 7), (Call.getAbsoluteTime, 8), (Call.getTime, 9)]).GetTime 12).1
      = ((((Timer.ctor 10).Reset 1).Stop 5).GetTime 6).1 :=
  ⟨by simp [Call.isTimeQuery],
   by simp [Timer.ctor, Timer.Reset, Timer.Stop],
   Timer.time_constant_after_stop ((Timer.ctor 10).Reset 1) 5
     [(Call.getElapsedTime, 7), (Call.getAbsoluteTime, 8), (Call.getTime, 9)] 12 6
     (by simp [Call.isTimeQuery]) (by simp [Timer.ctor, Timer.Reset, Timer.Stop])⟩

/-! ## Timer: Reset -/

/-- C4, as stated, fails on a Timer frozen at a nonzero stop time: `Reset()` takes the
adjusted time, which is the frozen `m_StopTime`, as the new base.  With 10 ticks per
second, after `Reset()` at 1 and `Stop()` at 5, `Reset()` at counter 9 sets the base to
5 and `GetTime()` at counter 9 returns 4/10. -/
theorem Timer.reset_time_nonzero_when_frozen :
    ((((Timer.ctor 10).Reset 1).Stop 5).Reset 9).m_BaseTime = 5 ∧
    (((((Timer.ctor 10).Reset 1).Stop 5).Reset 9).GetTime 9).1 = 2 / 5 ∧
    ¬ (∀ (tm : Timer) (c : Int), ((tm.Reset c).GetTime c).1 = 0) := by
  have h1 : (((((Timer.ctor 10).Reset 1).Stop 5).Reset 9).GetTime 9).1 = 2 / 5 := by
    norm_num [Timer.ctor, Timer.GetTime, Timer.GetAdjustedCurrentTime, Timer.Stop,
      Timer.Reset]
  refine ⟨by simp [Timer.ctor, Timer.GetAdjustedCurrentTime, Timer.Stop, Timer.Reset],
    h1, fun h => ?_⟩
  have h2 := h (((Timer.ctor 10).Reset 1).Stop 5) 9
  rw [h1] at h2
  norm_num at h2

/-- C4, amended. For every Timer state whose `m_StopTime` is 0 (nothing frozen) or
equals the counter reading `c`, calling `Reset()` at counter `c` and then `GetTime()`
at the same counter reading returns 0. -/
theorem Timer.reset_then_time_zero (tm : Timer) (c : Int)
    (h : tm.m_StopTime = 0 ∨ tm.m_StopTime = c) :
    ((tm.Reset c).GetTime c).1 = 0 := by
  rcases h with h | h <;>
    simp [Timer.GetTime, Timer.Reset, Timer.GetAdjustedCurrentTime, h]

theorem Timer.reset_then_time_zero_witness :
    ((Timer.ctor 10).m_StopTime = 0 ∨ (Timer.ctor 10).m_StopTime = 7) ∧
    (((Timer.ctor 10).Reset 7).GetTime 7).1 = 0 :=
  ⟨Or.inl rfl, Timer.reset_then_time_zero (Timer.ctor 10) 7 (Or.inl rfl)⟩

/-! ## Timer: Advance -/

/-- C6. On a freshly constructed Timer with 10,000,000 ticks per second: after `Reset()`
at tick 0, `GetTime()` at tick 5,000,000 returns 1/2 s; after `Stop()` at tick 5,000,000
and one `Advance()`, `GetTime()` returns 6/10 s whatever the live counter reads;
`Start()` at tick 8,000,000 then leaves `m_BaseTime` at 2,000,000 and `GetTime()` at
tick 9,000,000 returns 7/10 s. -/
theorem Timer.worked_scenario :
    (((Timer.ctor 10000000).Reset 0).GetTime 5000000).1 = 1 / 2 ∧
    (∀ c : Int,
      ((((((Timer.ctor 10000000).Reset 0).GetTime 5000000).2.Stop 5000000).Advance).GetTime
        c).1 = 6 / 10) ∧
    ((((((((Timer.ctor 10000000).Reset 0).GetTime 5000000).2.Stop 5000000).Advance).GetTime
        7000000).2).Start 8000000).m_BaseTime = 2000000 ∧
    (((((((((Timer.ctor 10000000).Reset 0).GetTime 5000000).2.Stop 5000000).Advance).GetTime
        7000000).2).Start 8000000).GetTime 9000000).1 = 7 / 10 := by
  have hd : (10000000 : Int).tdiv 10 = 1000000 := by decide
  refine ⟨?_, ?_, ?_, ?_⟩
  · norm_num [Timer.ctor, Timer.Reset, Timer.GetTime, Timer.GetAdjustedCurrentTime]
  · intro c
    norm_num [Timer.ctor, Timer.Reset, Timer.GetTime, Timer.GetAdjustedCurrentTime,
      Timer.Stop, Timer.Advance, hd]
  · norm_num [Timer.ctor, Timer.Reset, Timer.GetTime, Timer.GetAdjustedCurrentTime,
      Timer.Stop, Timer.Advance, Timer.Start, hd]
  · norm_num [Timer.ctor, Timer.Reset, Timer.GetTime, Timer.GetAdjustedCurrentTime,
      Timer.Stop, Timer.Advance, Timer.Start, hd]

/-! ## Timer: relative time over pause/resume cycles -/

/-- Pause/resume cycles on a running Timer keep it running, and move the base forward
by the ticks spent paused. -/
theorem Timer.pauseResumeAll_running (tm : Timer) (cycles : List (Int × Int))
    (hrun : tm.m_IsStop = false) :
    (tm.pauseResumeAll cycles).m_IsStop = false ∧
    (tm.pauseResumeAll cycles).m_StopTime = (if cycles = [] then tm.m_StopTime else 0) ∧
    (tm.pauseResumeAll cycles).m_BaseTime = tm.m_BaseTime + pausedTicks cycles ∧
    (tm.pauseResumeAll cycles).m_TicksPerSec = tm.m_TicksPerSec ∧
    (tm.pauseResumeAll cycles).m_InvTicksPerSec = tm.m_InvTicksPerSec := by
  induction cycles generalizing tm with
  | nil => simp [Timer.pauseResumeAll, pausedTicks, hrun]
  | cons p rest ih =>
    have hstep : (tm.pauseResume p).m_IsStop = false := by
      simp [Timer.pauseResume, Timer.Start]
    obtain ⟨h1, h2, h3, h4, h5⟩ := ih (tm.pauseResume p) hstep
    have hfold : tm.pauseResumeAll (p :: rest) = (tm.pauseResume p).pauseResumeAll rest := rfl
    have hstop : (tm.pauseResume p).m_StopTime = 0 := by
      simp [Timer.pauseResume, Timer.Start]
    have hbase : (tm.pauseResume p).m_BaseTime = tm.m_BaseTime + (p.2 - p.1) := by
      simp [Timer.pauseResume, Timer.Start, Timer.Stop, hrun]
    have htps : (tm.pauseResume p).m_TicksPerSec = tm.m_TicksPerSec := by
      simp [Timer.pauseResume, Timer.Start, Timer.Stop, hrun]
    have hinv : (tm.pauseResume p).m_InvTicksPerSec = tm.m_InvTicksPerSec := by
      simp [Timer.pauseResume, Timer.Start, Timer.Stop, hrun]
    rw [hfold]
    refine ⟨h1, ?_, ?_, h4.trans htps, h5.trans hinv⟩
    · rw [h2, hstop]
      simp
    · rw [h3, hbase]
      simp only [pausedTicks, List.map_cons, List.sum_cons]
      ring

/-- C7, as stated, fails when `Reset()` is called on a Timer frozen at a nonzero stop
time, because `Reset()` takes the frozen time and not the counter reading as the base.
With 10 ticks per second, after `Reset()` at 1 and `Stop()` at 5, a `Reset()` at counter
9 followed by no pause at all makes `GetTime()` at counter 10 return 5/10, not
(10 - 9)/10. -/
theorem Timer.time_formula_fails_after_frozen_reset :
    ((((((Timer.ctor 10).Reset 1).Stop 5).Reset 9).pauseResumeAll []).GetTime 10).1 = 1 / 2 ∧
    ¬ (∀ (tm : Timer) (r u : Int) (cycles : List (Int × Int)), tm.Calibrated →
        (((tm.Reset r).pauseResumeAll cycles).GetTime u).1
          = ((u - r - pausedTicks cycles : Int) : ℚ) / (tm.m_TicksPerSec : ℚ)) := by
  have h1 : ((((((Timer.ctor 10).Reset 1).Stop 5).Reset 9).pauseResumeAll []).GetTime 10).1
      = 1 / 2 := by
    norm_num [Timer.ctor, Timer.Reset, Timer.Stop, Timer.GetTime,
      Timer.GetAdjustedCurrentTime, Timer.pauseResumeAll]
  refine ⟨h1, fun h => ?_⟩
  have h2 := h (((Timer.ctor 10).Reset 1).Stop 5) 9 10 [] rfl
  rw [h1] at h2
  norm_num [pausedTicks, Timer.ctor, Timer.Reset, Timer.Stop] at h2

/-- C7, amended. For a Timer whose `m_StopTime` is 0 (or equals `r`) when `Reset()` is
called at counter `r`, and which is then taken through any number of pause/resume
cycles (`Stop()` at `s_i`, `Start()` at `t_i`, no `Advance()`), `GetTime()` read at
counter `u` returns `(u - r - sum of (t_i - s_i)) / m_TicksPerSec`. -/
theorem Timer.time_excludes_pauses (tm : Timer) (r u : Int) (cycles : List (Int × Int))
    (hcal : tm.Calibrated) (hlive : tm.m_StopTime = 0 ∨ tm.m_StopTime = r) :
    (((tm.Reset r).pauseResumeAll cycles).GetTime u).1
      = ((u - r - pausedTicks cycles : Int) : ℚ) / (tm.m_TicksPerSec : ℚ) := by
  have hreset : (tm.Reset r).m_BaseTime = r := by
    rcases hlive with h | h <;> simp [Timer.Reset, Timer.GetAdjustedCurrentTime, h]
  obtain ⟨_, h2, h3, _, h5⟩ := Timer.pauseResumeAll_running (tm.Reset r) cycles rfl
  have hstop : ((tm.Reset r).pauseResumeAll cycles).m_StopTime = 0 := by
    rw [h2]
    split <;> rfl
  have hinv : ((tm.Reset r).pauseResumeAll cycles).m_InvTicksPerSec
      = 1 / (tm.m_TicksPerSec : ℚ) := by
    rw [h5]
    exact hcal
  simp only [Timer.GetTime, Timer.GetAdjustedCurrentTime, hstop, h3, hreset, hinv]
  simp only [ne_eq, not_true_eq_false, if_false]
  push_cast
  ring

theorem Timer.time_excludes_pauses_witness :
    (Timer.ctor 10).Calibrated ∧
    ((Timer.ctor 10).m_StopTime = 0 ∨ (Timer.ctor 10).m_StopTime = 2) ∧
    ((((Timer.ctor 10).Reset 2).pauseResumeAll [(5, 8), (10, 11)]).GetTime 16).1
      = (((16 - 2 - pausedTicks [(5, 8), (10, 11)] : Int) : ℚ)) / ((Timer.ctor 10).m_TicksPerSec : ℚ) ∧
    pausedTicks [(5, 8), (10, 11)] = 4 :=
  ⟨rfl, Or.inl rfl,
   Timer.time_excludes_pauses (Timer.ctor 10) 2 16 [(5, 8), (10, 11)] rfl (Or.inl rfl),
   by decide⟩

/-! ## Timer: absolute time -/

/-- C8. `GetAbsoluteTime()` ignores the stop state: two Timer objects with the same
`m_TicksPerSec` (each with the reciprocal its constructor cached), whatever their stop
flag, base, stop time and elapsed mark, return the same value `c / m_TicksPerSec` at
the same live counter reading `c`, and the call leaves each object unchanged. -/
theorem Timer.absolute_time_ignores_state (tm1 tm2 : Timer) (c : Int)
    (hcal1 : tm1.Calibrated) (hcal2 : tm2.Calibrated)
    (hfreq : tm1.m_TicksPerSec = tm2.m_TicksPerSec) :
    (tm1.GetAbsoluteTime c).1 = (tm2.GetAbsoluteTime c).1 ∧
    (tm1.GetAbsoluteTime c).1 = (c : ℚ) / (tm1.m_TicksPerSec : ℚ) ∧
    (tm1.GetAbsoluteTime c).2 = tm1 ∧
    (tm2.GetAbsoluteTime c).2 = tm2 := by
  have h1 : (tm1.GetAbsoluteTime c).1 = (c : ℚ) / (tm1.m_TicksPerSec : ℚ) := by
    simp only [Timer.GetAbsoluteTime]
    rw [hcal1]
    ring
  have h2 : (tm2.GetAbsoluteTime c).1 = (c : ℚ) / (tm2.m_TicksPerSec : ℚ) := by
    simp only [Timer.GetAbsoluteTime]
    rw [hcal2]
    ring
  refine ⟨?_, h1, rfl, rfl⟩
  rw [h1, h2, hfreq]

theorem Timer.absolute_time_ignores_state_witness :
    ((Timer.ctor 10).Reset 3).Calibrated ∧
    ((((Timer.ctor 10).Reset 1).Stop 5).Advance).Calibrated ∧
    ((Timer.ctor 10).Reset 3).m_TicksPerSec
      = ((((Timer.ctor 10).Reset 1).Stop 5).Advance).m_TicksPerSec ∧
    ((Timer.ctor 10).Reset 3).m_IsStop = false ∧
    ((((Timer.ctor 10).Reset 1).Stop 5).Advance).m_IsStop = true ∧
    (((Timer.ctor 10).Reset 3).GetAbsoluteTime 42).1
      = (((((Timer.ctor 10).Reset 1).Stop 5).Advance).GetAbsoluteTime 42).1 :=
  ⟨rfl, rfl, rfl, rfl, rfl,
   (Timer.absolute_time_ignores_state ((Timer.ctor 10).Reset 3)
     ((((Timer.ctor 10).Reset 1).Stop 5).Advance) 42 rfl rfl rfl).1⟩

/-! ## Timer: GetValues against the single-value queries -/

/-- C9. For every Timer state and counter reading, the `time` output of `GetValues()`
equals what `GetTime()` returns, its `elapsedTime` output equals what
`GetElapsedTime()` returns, and the object after `GetValues()` is the object after
`GetElapsedTime()`: the given object with only the elapsed-time mark replaced by the
adjusted time. -/
theorem Timer.get_values_consistent (tm : Timer) (c : Int) :
    (tm.GetValues c).1.time = (tm.GetTime c).1 ∧
    (tm.GetValues c).1.elapsedTime = (tm.GetElapsedTime c).1 ∧
    (tm.GetValues c).2 = (tm.GetElapsedTime c).2 ∧
    (tm.GetValues c).2 = { tm with m_ElapsedTime := tm.GetAdjustedCurrentTime c } :=
  ⟨rfl, rfl, rfl, rfl⟩

/-! ## StopWatch -/

/-! ### Rounding -/

theorem roundTiesEven_abs_sub_le (s : ℚ) : |(roundTiesEven s : ℚ) - s| ≤ 1 / 2 := by
  have h1 : (Int.floor s : ℚ) ≤ s := Int.floor_le s
  have h2 : s < (Int.floor s : ℚ) + 1 := Int.lt_floor_add_one s
  unfold roundTiesEven
  split_ifs with ha hb hc
  · rw [abs_le]; constructor <;> linarith
  · rw [abs_le]; push_cast; constructor <;> linarith
  · rw [abs_le]; constructor <;> linarith
  · rw [abs_le]; push_cast; constructor <;> linarith

theorem roundF64_abs_sub_le (x : ℚ) :
    |roundF64 x - x| ≤ (1 / 2 ^ 53 : ℚ) * |x| := by
  unfold roundF64
  split_ifs with h0
  · simp [h0]
  · have hpos : (0 : ℚ) < |x| := abs_pos.mpr h0
    have hlog : (2 : ℚ) ^ (Int.log 2 |x|) ≤ |x| := Int.zpow_log_le_self (by norm_num) hpos
    set e := Int.log 2 |x| with he
    have hp : (0 : ℚ) < (2 : ℚ) ^ (e - 52) := by positivity
    have hr := roundTiesEven_abs_sub_le (x / (2 : ℚ) ^ (e - 52))
    have hx : x = (x / (2 : ℚ) ^ (e - 52)) * (2 : ℚ) ^ (e - 52) := by
      field_simp
    have hdiff : (roundTiesEven (x / (2 : ℚ) ^ (e - 52)) : ℚ) * (2 : ℚ) ^ (e - 52) - x
        = ((roundTiesEven (x / (2 : ℚ) ^ (e - 52)) : ℚ) - x / (2 : ℚ) ^ (e - 52))
          * (2 : ℚ) ^ (e - 52) := by
      field_simp
    rw [hdiff, abs_mul, abs_of_pos hp]
    have hsplit : (2 : ℚ) ^ (e - 52) = (2 : ℚ) ^ e / 2 ^ 52 := by
      rw [zpow_sub₀ (by norm_num : (2 : ℚ) ≠ 0)]
      norm_num
    calc |(roundTiesEven (x / (2 : ℚ) ^ (e - 52)) : ℚ) - x / (2 : ℚ) ^ (e - 52)|
          * (2 : ℚ) ^ (e - 52)
        ≤ 1 / 2 * (2 : ℚ) ^ (e - 52) := by
          exact mul_le_mul_of_nonneg_right hr (le_of_lt hp)
      _ = (1 / 2 ^ 53 : ℚ) * (2 : ℚ) ^ e := by
          rw [hsplit]
          ring
      _ ≤ (1 / 2 ^ 53 : ℚ) * |x| := by
          exact mul_le_mul_of_nonneg_left hlog (by positivity)


theorem roundTiesEven_eq_floor (s : ℚ) (f : Int) (h1 : (f : ℚ) ≤ s) (h2 : s - (f : ℚ) < 1 / 2) :
    roundTiesEven s = f := by
  have hf : Int.floor s = f := Int.floor_eq_iff.mpr ⟨h1, by linarith⟩
  unfold roundTiesEven
  rw [hf, if_pos h2]

theorem roundTiesEven_eq_succ (s : ℚ) (f : Int) (h1 : 1 / 2 < s - (f : ℚ))
    (h2 : s < (f : ℚ) + 1) : roundTiesEven s = f + 1 := by
  have hf : Int.floor s = f := Int.floor_eq_iff.mpr ⟨by linarith, h2⟩
  unfold roundTiesEven
  rw [hf, if_neg (by linarith), if_pos h1]

theorem roundTiesEven_tie_odd (s : ℚ) (f : Int) (h1 : s = (f : ℚ) + 1 / 2) (h2 : f % 2 = 1) :
    roundTiesEven s = f + 1 := by
  have hf : Int.floor s = f := Int.floor_eq_iff.mpr ⟨by linarith, by linarith⟩
  unfold roundTiesEven
  rw [hf, if_neg (by linarith), if_neg (by linarith), if_neg (by omega)]

theorem roundF64_eval (x : ℚ) (e n : Int) (h0 : x ≠ 0) (hlo : (2 : ℚ) ^ e ≤ |x|)
    (hhi : |x| < (2 : ℚ) ^ (e + 1)) (hn : roundTiesEven (x / (2 : ℚ) ^ (e - 52)) = n) :
    roundF64 x = (n : ℚ) * (2 : ℚ) ^ (e - 52) := by
  have hpos : (0 : ℚ) < |x| := abs_pos.mpr h0
  have h1 : e ≤ Int.log 2 |x| := (Int.zpow_le_iff_le_log (by norm_num) hpos).mp hlo
  have h2 : Int.log 2 |x| < e + 1 := (Int.lt_zpow_iff_log_lt (by norm_num) hpos).mp hhi
  have he : Int.log 2 |x| = e := by omega
  unfold roundF64
  rw [if_neg h0, he, hn]

theorem roundF64_ten : roundF64 10 = 10 := by
  rw [roundF64_eval 10 3 5629499534213120 (by norm_num)
    (by rw [abs_of_pos (by norm_num)]; norm_num) (by rw [abs_of_pos (by norm_num)]; norm_num)
    (roundTiesEven_eq_floor _ 5629499534213120 (by norm_num) (by norm_num))]
  norm_num

theorem roundF64_tenth : roundF64 (1 / 10) = 3602879701896397 / 36028797018963968 := by
  rw [roundF64_eval (1 / 10) (-4) 7205759403792794 (by norm_num)
    (by rw [abs_of_pos (by norm_num)]; norm_num) (by rw [abs_of_pos (by norm_num)]; norm_num)
    (roundTiesEven_eq_succ _ 7205759403792793 (by norm_num) (by norm_num))]
  norm_num

theorem roundF64_three : roundF64 3 = 3 := by
  rw [roundF64_eval 3 1 6755399441055744 (by norm_num)
    (by rw [abs_of_pos (by norm_num)]; norm_num) (by rw [abs_of_pos (by norm_num)]; norm_num)
    (roundTiesEven_eq_floor _ 6755399441055744 (by norm_num) (by norm_num))]
  norm_num

theorem roundF64_three_thousand : roundF64 3000 = 3000 := by
  rw [roundF64_eval 3000 11 6597069766656000 (by norm_num)
    (by rw [abs_of_pos (by norm_num)]; norm_num) (by rw [abs_of_pos (by norm_num)]; norm_num)
    (roundTiesEven_eq_floor _ 6597069766656000 (by norm_num) (by norm_num))]
  norm_num

theorem roundF64_three_tenths :
    roundF64 (3 * (3602879701896397 / 36028797018963968))
      = 1351079888211149 / 4503599627370496 := by
  rw [roundF64_eval _ (-2) 5404319552844596 (by norm_num)
    (by rw [abs_of_pos (by norm_num)]; norm_num) (by rw [abs_of_pos (by norm_num)]; norm_num)
    (roundTiesEven_tie_odd _ 5404319552844595 (by norm_num) (by decide))]
  norm_num

theorem roundF64_three_thousand_tenths :
    roundF64 (3000 * (3602879701896397 / 36028797018963968)) = 300 := by
  rw [roundF64_eval _ 8 5277655813324800 (by norm_num)
    (by rw [abs_of_pos (by norm_num)]; norm_num) (by rw [abs_of_pos (by norm_num)]; norm_num)
    (roundTiesEven_eq_floor _ 5277655813324800 (by norm_num) (by norm_num))]
  norm_num

theorem roundF64_thousand_three_tenths :
    roundF64 (1000 * (1351079888211149 / 4503599627370496))
      = 5277655813324801 / 17592186044416 := by
  rw [roundF64_eval _ 8 5277655813324801 (by norm_num)
    (by rw [abs_of_pos (by norm_num)]; norm_num) (by rw [abs_of_pos (by norm_num)]; norm_num)
    (roundTiesEven_eq_succ _ 5277655813324800 (by norm_num) (by norm_num))]
  norm_num

theorem roundF64_zero : roundF64 0 = 0 := by
  simp [roundF64]

theorem roundF64_abs_bounds (x : ℚ) : |x| / 2 ≤ |roundF64 x| ∧ |roundF64 x| ≤ 2 * |x| := by
  have h := roundF64_abs_sub_le x
  have hx : (0 : ℚ) ≤ |x| := abs_nonneg x
  have hu : (1 / 2 ^ 53 : ℚ) * |x| ≤ |x| / 2 := by
    have : (1 / 2 ^ 53 : ℚ) ≤ 1 / 2 := by norm_num
    nlinarith
  have h1 : |x| - |roundF64 x| ≤ |roundF64 x - x| := by
    have := abs_sub_abs_le_abs_sub x (roundF64 x)
    rwa [abs_sub_comm] at this
  have h2 : |roundF64 x| - |x| ≤ |roundF64 x - x| := abs_sub_abs_le_abs_sub (roundF64 x) x
  constructor <;> linarith

theorem checkedF64_of_bounds (x : ℚ) (hlo : (2 : ℚ) ^ (-100 : ℤ) ≤ |x|)
    (hhi : |x| ≤ (2 : ℚ) ^ (100 : ℤ)) : checkedF64 x = some (roundF64 x) := by
  unfold checkedF64
  rw [if_pos]
  right
  constructor
  · refine le_trans ?_ hlo
    norm_num
  · refine le_trans hhi ?_
    norm_num

theorem checkedF64_zero : checkedF64 0 = some 0 := by
  simp [checkedF64, roundF64_zero]

/-- Rounding error of the two readout expressions against each other. -/
theorem roundF64_readouts_close (A i : ℚ) :
    |roundF64 (roundF64 (A * 1000) * i) - 1000 * roundF64 (A * i)|
      ≤ (1 / 2 ^ 51 : ℚ) * |1000 * roundF64 (A * i)| := by
  have h1 := roundF64_abs_sub_le (A * 1000)
  have h2 := roundF64_abs_sub_le (roundF64 (A * 1000) * i)
  have h3 := roundF64_abs_sub_le (A * i)
  set y := roundF64 (A * 1000) with hy
  set m := roundF64 (y * i) with hm
  set s := roundF64 (A * i) with hs
  have hP : (0 : ℚ) ≤ |A| * |i| := mul_nonneg (abs_nonneg A) (abs_nonneg i)
  have hi : (0 : ℚ) ≤ |i| := abs_nonneg i
  have hA1000 : |A * 1000| = 1000 * |A| := by
    rw [abs_mul]
    norm_num
    ring
  have hAi : |A * i| = |A| * |i| := abs_mul A i
  have hyi : |y * i| = |y| * |i| := abs_mul y i
  -- the middle term
  have hmid : |y * i - A * 1000 * i| ≤ (1 / 2 ^ 53 : ℚ) * (1000 * (|A| * |i|)) := by
    have : y * i - A * 1000 * i = (y - A * 1000) * i := by ring
    rw [this, abs_mul]
    calc |y - A * 1000| * |i| ≤ ((1 / 2 ^ 53 : ℚ) * |A * 1000|) * |i| :=
          mul_le_mul_of_nonneg_right h1 hi
      _ = (1 / 2 ^ 53 : ℚ) * (1000 * (|A| * |i|)) := by rw [hA1000]; ring
  have hybound : |y * i| ≤ 1000 * (|A| * |i|) + (1 / 2 ^ 53 : ℚ) * (1000 * (|A| * |i|)) := by
    have hsplit : y * i = A * 1000 * i + (y * i - A * 1000 * i) := by ring
    have h1000 : |A * 1000 * i| = 1000 * (|A| * |i|) := by
      rw [abs_mul, hA1000]
      ring
    calc |y * i| = |A * 1000 * i + (y * i - A * 1000 * i)| := by rw [← hsplit]
      _ ≤ |A * 1000 * i| + |y * i - A * 1000 * i| := abs_add _ _
      _ ≤ 1000 * (|A| * |i|) + (1 / 2 ^ 53 : ℚ) * (1000 * (|A| * |i|)) := by
          rw [h1000]
          linarith
  have hslow : |A| * |i| - (1 / 2 ^ 53 : ℚ) * (|A| * |i|) ≤ |s| := by
    have := abs_sub_abs_le_abs_sub (A * i) s
    rw [abs_sub_comm] at this
    rw [hAi] at this h3
    linarith
  have hsplit : m - 1000 * s
      = (m - y * i) + (y * i - A * 1000 * i) + 1000 * (A * i - s) := by ring
  have hlast : |1000 * (A * i - s)| ≤ 1000 * ((1 / 2 ^ 53 : ℚ) * (|A| * |i|)) := by
    rw [abs_mul, abs_sub_comm]
    rw [hAi] at h3
    have : |(1000 : ℚ)| = 1000 := by norm_num
    rw [this]
    linarith
  have htri : |m - 1000 * s|
      ≤ |m - y * i| + |y * i - A * 1000 * i| + |1000 * (A * i - s)| := by
    rw [hsplit]
    exact abs_add_three _ _ _
  have hgoal : |1000 * s| = 1000 * |s| := by
    rw [abs_mul]
    norm_num
  rw [hgoal]
  have hm2 : |m - y * i| ≤ (1 / 2 ^ 53 : ℚ) * |y * i| := h2
  nlinarith [hm2, hmid, hybound, hslow, hlast, htri, hP]

theorem checkedF64_mag (x lo hi : ℚ) (hlo0 : (2 : ℚ) ^ (-100 : ℤ) ≤ lo)
    (hhi0 : hi ≤ (2 : ℚ) ^ (100 : ℤ)) (h1 : lo ≤ |x|) (h2 : |x| ≤ hi) :
    checkedF64 x = some (roundF64 x) ∧ lo / 2 ≤ |roundF64 x| ∧ |roundF64 x| ≤ 2 * hi := by
  have hb := roundF64_abs_bounds x
  refine ⟨checkedF64_of_bounds x (le_trans hlo0 h1) (le_trans h2 hhi0), ?_, ?_⟩
  · linarith [hb.1]
  · linarith [hb.2]

theorem abs_mul_bounds (x y lx hx ly hy : ℚ) (hlx : 0 ≤ lx) (hly : 0 ≤ ly)
    (h1 : lx ≤ |x|) (h2 : |x| ≤ hx) (h3 : ly ≤ |y|) (h4 : |y| ≤ hy) :
    lx * ly ≤ |x * y| ∧ |x * y| ≤ hx * hy := by
  rw [abs_mul]
  constructor
  · exact mul_le_mul h1 h3 hly (le_trans hlx h1)
  · exact mul_le_mul h2 h4 (abs_nonneg y) (le_trans (abs_nonneg x) h2)

theorem StopWatch.ctorF64_some (freq : Int) (hfreq : 0 < freq) (hmax : freq < 2 ^ 63) :
    ∃ inv : ℚ, StopWatch.ctorF64 freq
        = some { m_StartTime := 0, m_EndTime := 0, m_TicksPerSec := freq,
                 m_InvTicksPerSec := inv } ∧
      (1 / 2 ^ 65 : ℚ) ≤ |inv| ∧ |inv| ≤ 4 := by
  have hF1 : (1 : ℚ) ≤ |(freq : ℚ)| := by
    rw [abs_of_pos (by exact_mod_cast hfreq)]
    exact_mod_cast hfreq
  have hF2 : |(freq : ℚ)| ≤ 2 ^ 63 := by
    rw [abs_of_pos (by exact_mod_cast hfreq)]
    exact_mod_cast le_of_lt hmax
  obtain ⟨c1, l1, u1⟩ := checkedF64_mag (freq : ℚ) 1 (2 ^ 63) (by norm_num) (by norm_num) hF1 hF2
  have hfpos : (0 : ℚ) < |roundF64 (freq : ℚ)| := by linarith
  have hf0 : roundF64 (freq : ℚ) ≠ 0 := abs_pos.mp hfpos
  have hr1 : (1 / 2 ^ 64 : ℚ) ≤ |1 / roundF64 (freq : ℚ)| := by
    rw [abs_div, abs_one]
    rw [div_le_div_iff₀ (by positivity) hfpos]
    linarith
  have hr2 : |1 / roundF64 (freq : ℚ)| ≤ 2 := by
    rw [abs_div, abs_one]
    rw [div_le_iff₀ hfpos]
    linarith
  obtain ⟨c2, l2, u2⟩ := checkedF64_mag (1 / roundF64 (freq : ℚ)) (1 / 2 ^ 64) 2
    (by norm_num) (by norm_num) hr1 hr2
  refine ⟨roundF64 (1 / roundF64 (freq : ℚ)), ?_, ?_, ?_⟩
  · simp only [StopWatch.ctorF64, c1, Option.some_bind, if_neg hf0, c2]
  · linarith
  · linarith

theorem StopWatch.readoutsF64_some (sw : StopWatch)
    (hinv1 : (1 / 2 ^ 65 : ℚ) ≤ |sw.m_InvTicksPerSec|) (hinv2 : |sw.m_InvTicksPerSec| ≤ 4)
    (hd : |sw.m_EndTime - sw.m_StartTime| < 2 ^ 63) :
    ∃ msec sec : ℚ,
      sw.GetElapsedTimeMsecF64 = some (msec, sw) ∧
      sw.GetElapsedTimeSecF64 = some (sec, sw) ∧
      |msec - 1000 * sec| ≤ (1 / 2 ^ 51 : ℚ) * |1000 * sec| := by
  by_cases hz : sw.m_EndTime - sw.m_StartTime = 0
  · refine ⟨0, 0, ?_, ?_, by norm_num⟩
    · simp [StopWatch.GetElapsedTimeMsecF64, hz, checkedF64_zero]
    · simp [StopWatch.GetElapsedTimeSecF64, hz, checkedF64_zero]
  · have hD1 : (1 : ℚ) ≤ |((sw.m_EndTime - sw.m_StartTime : Int) : ℚ)| := by
      have : (1 : Int) ≤ |sw.m_EndTime - sw.m_StartTime| := Int.one_le_abs hz
      exact_mod_cast this
    have hD2 : |((sw.m_EndTime - sw.m_StartTime : Int) : ℚ)| ≤ 2 ^ 63 := by
      have : |sw.m_EndTime - sw.m_StartTime| ≤ 2 ^ 63 := le_of_lt hd
      exact_mod_cast this
    obtain ⟨c1, l1, u1⟩ := checkedF64_mag _ 1 (2 ^ 63) (by norm_num) (by norm_num) hD1 hD2
    set A := roundF64 ((sw.m_EndTime - sw.m_StartTime : Int) : ℚ) with hA
    have h1000 : |(1000 : ℚ)| = 1000 := by norm_num
    obtain ⟨p1, p2⟩ := abs_mul_bounds A 1000 (1 / 2) (2 * 2 ^ 63) 1000 1000
      (by norm_num) (by norm_num) l1 u1 (by rw [h1000]) (by rw [h1000])
    obtain ⟨c2, l2, u2⟩ := checkedF64_mag (A * 1000) (1 / 2 * 1000) (2 * 2 ^ 63 * 1000)
      (by norm_num) (by norm_num) p1 p2
    obtain ⟨q1, q2⟩ := abs_mul_bounds (roundF64 (A * 1000)) sw.m_InvTicksPerSec
      (1 / 2 * 1000 / 2) (2 * (2 * 2 ^ 63 * 1000)) (1 / 2 ^ 65) 4
      (by norm_num) (by norm_num) l2 u2 hinv1 hinv2
    obtain ⟨c3, _, _⟩ := checkedF64_mag (roundF64 (A * 1000) * sw.m_InvTicksPerSec)
      (1 / 2 * 1000 / 2 * (1 / 2 ^ 65)) (2 * (2 * 2 ^ 63 * 1000) * 4)
      (by norm_num) (by norm_num) q1 q2
    obtain ⟨r1, r2⟩ := abs_mul_bounds A sw.m_InvTicksPerSec (1 / 2) (2 * 2 ^ 63)
      (1 / 2 ^ 65) 4 (by norm_num) (by norm_num) l1 u1 hinv1 hinv2
    obtain ⟨c4, _, _⟩ := checkedF64_mag (A * sw.m_InvTicksPerSec)
      (1 / 2 * (1 / 2 ^ 65)) (2 * 2 ^ 63 * 4) (by norm_num) (by norm_num) r1 r2
    refine ⟨roundF64 (roundF64 (A * 1000) * sw.m_InvTicksPerSec),
      roundF64 (A * sw.m_InvTicksPerSec), ?_, ?_, roundF64_readouts_close A _⟩
    · simp only [StopWatch.GetElapsedTimeMsecF64, c1, Option.some_bind, c2, c3]
    · simp only [StopWatch.GetElapsedTimeSecF64, c1, Option.some_bind, c4]

/-! ### The two readouts against each other -/

/-- C10, as stated, fails in the binary64 arithmetic of the code.  With 10 ticks per
second the cached reciprocal is the double nearest 1/10; after `Start()` at 0 and
`End()` at 3, `GetElapsedTimeMsec()` returns exactly 300 while `GetElapsedTimeSec()`
returns 1351079888211149 / 2^52 (0.30000000000000004), and 1000 times that is not 300,
neither exactly nor after rounding the product to a double (300.00000000000006). -/
theorem StopWatch.msec_differs_from_thousand_sec :
    (StopWatch.ctorF64 10).map (fun sw => sw.m_InvTicksPerSec)
      = some (3602879701896397 / 36028797018963968) ∧
    ((StopWatch.ctorF64 10).bind
        (fun sw => ((sw.Start 0).End 3).GetElapsedTimeMsecF64)).map Prod.fst = some 300 ∧
    ((StopWatch.ctorF64 10).bind
        (fun sw => ((sw.Start 0).End 3).GetElapsedTimeSecF64)).map Prod.fst
      = some (1351079888211149 / 4503599627370496) ∧
    (300 : ℚ) ≠ 1000 * (1351079888211149 / 4503599627370496) ∧
    checkedF64 (1000 * (1351079888211149 / 4503599627370496))
      = some (5277655813324801 / 17592186044416) ∧
    ¬ (∀ (freq a b : Int) (sw : StopWatch) (msec sec : ℚ),
        StopWatch.ctorF64 freq = some sw →
        ((sw.Start a).End b).GetElapsedTimeMsecF64.map Prod.fst = some msec →
        ((sw.Start a).End b).GetElapsedTimeSecF64.map Prod.fst = some sec →
        msec = 1000 * sec) := by
  have c10 : checkedF64 ((10 : Int) : ℚ) = some 10 := by
    rw [checkedF64_of_bounds _ (by norm_num) (by norm_num)]
    norm_num [roundF64_ten]
  have cinv : checkedF64 (1 / 10) = some (3602879701896397 / 36028797018963968) := by
    rw [checkedF64_of_bounds _ (by rw [abs_of_pos (by norm_num)]; norm_num)
      (by rw [abs_of_pos (by norm_num)]; norm_num), roundF64_tenth]
  have c3 : checkedF64 (((3 - 0 : Int) : Int) : ℚ) = some 3 := by
    rw [checkedF64_of_bounds _ (by norm_num) (by norm_num)]
    norm_num [roundF64_three]
  have c3000 : checkedF64 (3 * 1000) = some 3000 := by
    rw [checkedF64_of_bounds _ (by norm_num) (by norm_num)]
    norm_num [roundF64_three_thousand]
  have cms : checkedF64 (3000 * (3602879701896397 / 36028797018963968)) = some 300 := by
    rw [checkedF64_of_bounds _ (by rw [abs_of_pos (by norm_num)]; norm_num)
      (by rw [abs_of_pos (by norm_num)]; norm_num), roundF64_three_thousand_tenths]
  have csec : checkedF64 (3 * (3602879701896397 / 36028797018963968))
      = some (1351079888211149 / 4503599627370496) := by
    rw [checkedF64_of_bounds _ (by rw [abs_of_pos (by norm_num)]; norm_num)
      (by rw [abs_of_pos (by norm_num)]; norm_num), roundF64_three_tenths]
  have cprod : checkedF64 (1000 * (1351079888211149 / 4503599627370496))
      = some (5277655813324801 / 17592186044416) := by
    rw [checkedF64_of_bounds _ (by rw [abs_of_pos (by norm_num)]; norm_num)
      (by rw [abs_of_pos (by norm_num)]; norm_num), roundF64_thousand_three_tenths]
  obtain ⟨sw, hctor, hinv⟩ : ∃ sw : StopWatch, StopWatch.ctorF64 10 = some sw ∧
      sw.m_InvTicksPerSec = 3602879701896397 / 36028797018963968 := by
    refine ⟨StopWatch.mk 10 0 0 (3602879701896397 / 36028797018963968), ?_, ?_⟩
    · simp only [StopWatch.ctorF64, c10, Option.some_bind]
      rw [if_neg (by norm_num), cinv, Option.some_bind]
    · simp only []
  have hdiff : ((sw.Start 0).End 3).m_EndTime - ((sw.Start 0).End 3).m_StartTime = 3 - 0 := rfl
  have hinv2 : ((sw.Start 0).End 3).m_InvTicksPerSec
      = 3602879701896397 / 36028797018963968 := hinv
  have hms : ((sw.Start 0).End 3).GetElapsedTimeMsecF64.map Prod.fst = some 300 := by
    unfold StopWatch.GetElapsedTimeMsecF64
    rw [hdiff, hinv2, c3, Option.some_bind, c3000, Option.some_bind, cms, Option.some_bind,
      Option.map_some']
  have hsec : ((sw.Start 0).End 3).GetElapsedTimeSecF64.map Prod.fst
      = some (1351079888211149 / 4503599627370496) := by
    unfold StopWatch.GetElapsedTimeSecF64
    rw [hdiff, hinv2, c3, Option.some_bind, csec, Option.some_bind, Option.map_some']
  refine ⟨?_, ?_, ?_, by norm_num, cprod, fun h => ?_⟩
  · rw [hctor, Option.map_some', hinv]
  · rw [hctor, Option.some_bind, hms]
  · rw [hctor, Option.some_bind, hsec]
  · have h1 := h 10 0 3 sw 300 (1351079888211149 / 4503599627370496) hctor hms hsec
    norm_num at h1

/-- C10, amended. For a StopWatch constructed at a positive frequency (in the `s64`
range) and any `Start()`/`End()` readings whose difference is in the `s64` range, both
readouts are finite doubles, and `GetElapsedTimeMsec()` agrees with 1000 times
`GetElapsedTimeSec()` up to binary64 rounding: the two differ by at most 2^-51 of the
latter. -/
theorem StopWatch.msec_near_thousand_sec (freq a b : Int) (hfreq : 0 < freq)
    (hmax : freq < 2 ^ 63) (hd : |b - a| < 2 ^ 63) :
    ∃ (sw : StopWatch) (msec sec : ℚ),
      StopWatch.ctorF64 freq = some sw ∧
      ((sw.Start a).End b).GetElapsedTimeMsecF64 = some (msec, (sw.Start a).End b) ∧
      ((sw.Start a).End b).GetElapsedTimeSecF64 = some (sec, (sw.Start a).End b) ∧
      |msec - 1000 * sec| ≤ (1 / 2 ^ 51 : ℚ) * |1000 * sec| := by
  obtain ⟨inv, hctor, hi1, hi2⟩ := StopWatch.ctorF64_some freq hfreq hmax
  obtain ⟨msec, sec, hm, hs, hclose⟩ := StopWatch.readoutsF64_some
    ((({ m_StartTime := 0, m_EndTime := 0, m_TicksPerSec := freq,
         m_InvTicksPerSec := inv } : StopWatch).Start a).End b) hi1 hi2 hd
  exact ⟨_, msec, sec, hctor, hm, hs, hclose⟩

theorem StopWatch.msec_near_thousand_sec_witness :
    (0 : Int) < 10 ∧ (10 : Int) < 2 ^ 63 ∧ |(3 : Int) - 0| < 2 ^ 63 ∧
    ∃ (sw : StopWatch) (msec sec : ℚ),
      StopWatch.ctorF64 10 = some sw ∧
      ((sw.Start 0).End 3).GetElapsedTimeMsecF64 = some (msec, (sw.Start 0).End 3) ∧
      ((sw.Start 0).End 3).GetElapsedTimeSecF64 = some (sec, (sw.Start 0).End 3) ∧
      |msec - 1000 * sec| ≤ (1 / 2 ^ 51 : ℚ) * |1000 * sec| :=
  ⟨by decide, by decide, by decide,
   StopWatch.msec_near_thousand_sec 10 0 3 (by decide) (by decide) (by decide)⟩

/-! ### The two samples -/

/-- C11. `StopWatch` is a pure two-sample difference: `Start()` does not touch
`m_EndTime`, `End()` does not touch `m_StartTime`, and after `Start()` at counter `a` and
`End()` at counter `b`, in either order, `GetElapsedTimeSec()` returns
`(b - a) / m_TicksPerSec` with no clamp, so the value is negative whenever `b < a`
(for the positive frequency the platform reports). -/
theorem StopWatch.two_sample_difference (sw : StopWatch) (a b : Int)
    (hcal : sw.Calibrated) (hfreq : 0 < sw.m_TicksPerSec) :
    (sw.Start a).m_EndTime = sw.m_EndTime ∧
    (sw.End b).m_StartTime = sw.m_StartTime ∧
    ((sw.Start a).End b).GetElapsedTimeSec.1 = ((b - a : Int) : ℚ) / (sw.m_TicksPerSec : ℚ) ∧
    ((sw.End b).Start a).GetElapsedTimeSec.1 = ((b - a : Int) : ℚ) / (sw.m_TicksPerSec : ℚ) ∧
    (b < a → ((sw.Start a).End b).GetElapsedTimeSec.1 < 0) := by
  have hval : ((sw.Start a).End b).GetElapsedTimeSec.1
      = ((b - a : Int) : ℚ) / (sw.m_TicksPerSec : ℚ) := by
    simp only [StopWatch.GetElapsedTimeSec, StopWatch.Start, StopWatch.End]
    rw [hcal]
    ring
  have hval2 : ((sw.End b).Start a).GetElapsedTimeSec.1
      = ((b - a : Int) : ℚ) / (sw.m_TicksPerSec : ℚ) := by
    simp only [StopWatch.GetElapsedTimeSec, StopWatch.Start, StopWatch.End]
    rw [hcal]
    ring
  refine ⟨rfl, rfl, hval, hval2, fun hlt => ?_⟩
  rw [hval]
  have hq : (0 : ℚ) < (sw.m_TicksPerSec : ℚ) := by exact_mod_cast hfreq
  have hd : ((b - a : Int) : ℚ) < 0 := by
    have : b - a < 0 := by omega
    exact_mod_cast this
  exact div_neg_of_neg_of_pos hd hq

theorem StopWatch.two_sample_difference_witness :
    (StopWatch.ctor 10).Calibrated ∧ 0 < (StopWatch.ctor 10).m_TicksPerSec ∧
    (((StopWatch.ctor 10).Start 7).End 3).GetElapsedTimeSec.1
      = (((3 : Int) - 7 : Int) : ℚ) / ((StopWatch.ctor 10).m_TicksPerSec : ℚ) ∧
    (((StopWatch.ctor 10).Start 7).End 3).GetElapsedTimeSec.1 < 0 :=
  ⟨rfl, by decide,
   (StopWatch.two_sample_difference (StopWatch.ctor 10) 7 3 rfl (by decide)).2.2.1,
   (StopWatch.two_sample_difference (StopWatch.ctor 10) 7 3 rfl (by decide)).2.2.2.2
     (by decide)⟩

/-! ## Timer: Start and Stop on a Timer already in the target state -/

/-- C12, as stated, fails: `Start()` writes the live counter reading into the
elapsed-time mark whether or not the Timer was stopped.  On the running Timer obtained
by `Reset()` at counter 1, `Start()` at counter 5 moves the mark from 1 to 5. -/
theorem Timer.start_while_running_moves_mark :
    ((Timer.ctor 10).Reset 1).IsStop = false ∧
    ((Timer.ctor 10).Reset 1).m_ElapsedTime = 1 ∧
    (((Timer.ctor 10).Reset 1).Start 5).m_ElapsedTime = 5 ∧
    ¬ (∀ (tm : Timer) (c : Int), tm.IsStop = false → tm.Start c = tm) := by
  have h1 : ((Timer.ctor 10).Reset 1).m_ElapsedTime = 1 := by
    simp [Timer.ctor, Timer.Reset, Timer.GetAdjustedCurrentTime]
  have h2 : (((Timer.ctor 10).Reset 1).Start 5).m_ElapsedTime = 5 := by
    simp [Timer.Start]
  refine ⟨rfl, h1, h2, fun h => ?_⟩
  have h3 := h ((Timer.ctor 10).Reset 1) 5 rfl
  rw [h3, h1] at h2
  norm_num at h2

/-- C12, amended. `Start()` on a running Timer (`IsStop()` false) leaves `m_BaseTime`, the
stop flag, the frequency and its reciprocal unchanged, sets `m_StopTime` to 0 and moves
the elapsed-time mark to the live counter reading; the object after the call equals the
object before it exactly when `m_StopTime` was 0 and the mark already was that
reading. -/
theorem Timer.start_while_running (tm : Timer) (c : Int) (hrun : tm.IsStop = false) :
    (tm.Start c).m_BaseTime = tm.m_BaseTime ∧
    (tm.Start c).IsStop = tm.IsStop ∧
    (tm.Start c).m_TicksPerSec = tm.m_TicksPerSec ∧
    (tm.Start c).m_InvTicksPerSec = tm.m_InvTicksPerSec ∧
    (tm.Start c).m_StopTime = 0 ∧
    (tm.Start c).m_ElapsedTime = c ∧
    (tm.Start c = tm ↔ tm.m_StopTime = 0 ∧ tm.m_ElapsedTime = c) := by
  have hflag : tm.m_IsStop = false := hrun
  refine ⟨?_, ?_, rfl, rfl, rfl, rfl, ?_⟩
  · simp [Timer.Start, hflag]
  · simp [Timer.Start, Timer.IsStop, hflag]
  · cases tm
    simp only [Timer.Start, Timer.mk.injEq] at hflag ⊢
    subst hflag
    simp
    constructor
    · rintro ⟨h1, h2⟩
      exact ⟨h1.symm, h2.symm⟩
    · rintro ⟨h1, h2⟩
      exact ⟨h1.symm, h2.symm⟩

theorem Timer.start_while_running_witness :
    ((Timer.ctor 10).Reset 1).IsStop = false ∧
    (((Timer.ctor 10).Reset 1).Start 5).m_BaseTime = ((Timer.ctor 10).Reset 1).m_BaseTime ∧
    (((Timer.ctor 10).Reset 1).Start 5).m_ElapsedTime = 5 :=
  ⟨rfl, (Timer.start_while_running ((Timer.ctor 10).Reset 1) 5 rfl).1,
   (Timer.start_while_running ((Timer.ctor 10).Reset 1) 5 rfl).2.2.2.2.2.1⟩

/-- C14. `Stop()` on a Timer whose `IsStop()` is true changes nothing, whatever the
counter reads, so `Stop()` at `s` followed by `Stop()` at `s'` leaves the object that
`Stop()` at `s` alone leaves; `Stop()` on a running Timer sets `m_StopTime` and the
elapsed-time mark to the live sample, sets the stop flag and leaves `m_BaseTime`, the
frequency and its reciprocal unchanged. -/
theorem Timer.stop_idempotent (tm : Timer) (s s' : Int) :
    (tm.IsStop = true → tm.Stop s = tm) ∧
    (tm.Stop s).Stop s' = tm.Stop s ∧
    (tm.IsStop = false →
      (tm.Stop s).m_StopTime = s ∧ (tm.Stop s).m_ElapsedTime = s ∧
      (tm.Stop s).IsStop = true ∧ (tm.Stop s).m_BaseTime = tm.m_BaseTime ∧
      (tm.Stop s).m_TicksPerSec = tm.m_TicksPerSec ∧
      (tm.Stop s).m_InvTicksPerSec = tm.m_InvTicksPerSec) := by
  refine ⟨fun h => ?_, ?_, fun h => ?_⟩
  · have hflag : tm.m_IsStop = true := h
    simp [Timer.Stop, hflag]
  · cases hflag : tm.m_IsStop <;> simp [Timer.Stop, hflag]
  · have hflag : tm.m_IsStop = false := h
    simp [Timer.Stop, Timer.IsStop, hflag]

theorem Timer.stop_idempotent_witness :
    ((Timer.ctor 10).Reset 1).IsStop = false ∧
    (((Timer.ctor 10).Reset 1).Stop 5).IsStop = true ∧
    (((Timer.ctor 10).Reset 1).Stop 5).Stop 9 = ((Timer.ctor 10).Reset 1).Stop 5 ∧
    (((Timer.ctor 10).Reset 1).Stop 5).m_StopTime = 5 ∧
    (((Timer.ctor 10).Reset 1).Stop 5).Stop 9 = (((Timer.ctor 10).Reset 1).Stop 5) :=
  ⟨rfl, rfl,
   (Timer.stop_idempotent ((Timer.ctor 10).Reset 1) 5 9).2.1,
   ((Timer.stop_idempotent ((Timer.ctor 10).Reset 1) 5 9).2.2 rfl).1,
   (Timer.stop_idempotent (((Timer.ctor 10).Reset 1).Stop 5) 9 9).1 rfl⟩

/-! ## Timer: the stop flag -/

theorem Timer.run_append_singleton (tm : Timer) (calls : List (Call × Int)) (p : Call × Int) :
    tm.run (calls ++ [p]) = (tm.run calls).step p.1 p.2 := by
  simp [Timer.run, List.foldl_append]

theorem Timer.step_synced (tm : Timer) (call : Call) (c : Int) (h : tm.Synced)
    (hpos : call = Call.stop → 0 < c) (hadv : call = Call.advance → tm.IsStop = true) :
    (tm.step call c).Synced := by
  obtain ⟨hf, hs⟩ := h
  cases call
  · exact ⟨hf, Or.inl ⟨rfl, rfl⟩⟩
  · exact ⟨hf, Or.inl ⟨rfl, rfl⟩⟩
  · refine ⟨?_, ?_⟩
    · simp only [Timer.step, Timer.Stop]
      split <;> exact hf
    · rcases hs with ⟨h1, _⟩ | ⟨h1, h2⟩
      · right
        simp [Timer.step, Timer.Stop, h1, hpos rfl]
      · right
        simp [Timer.step, Timer.Stop, h1, h2]
  · have hflag : tm.m_IsStop = true := hadv rfl
    rcases hs with ⟨h1, _⟩ | ⟨h1, h2⟩
    · rw [h1] at hflag
      exact absurd hflag (by decide)
    · refine ⟨hf, Or.inr ⟨h1, ?_⟩⟩
      have hd : 0 ≤ tm.m_TicksPerSec.tdiv 10 := Int.tdiv_nonneg hf (by decide)
      simp only [Timer.step, Timer.Advance]
      omega
  · exact ⟨hf, hs⟩
  · exact ⟨hf, hs⟩
  · exact ⟨hf, hs⟩
  · exact ⟨hf, hs⟩
  · exact ⟨hf, hs⟩

theorem Timer.run_synced (tm : Timer) (calls : List (Call × Int)) (h : tm.Synced)
    (hpos : ∀ p ∈ calls, p.1 = Call.stop → 0 < p.2) (hadv : tm.AdvanceOnlyStopped calls) :
    (tm.run calls).Synced := by
  induction calls generalizing tm with
  | nil => exact h
  | cons p rest ih =>
    rw [Timer.run_cons]
    obtain ⟨hadv1, hadv2⟩ := hadv
    exact ih (tm.step p.1 p.2)
      (Timer.step_synced tm p.1 p.2 h (hpos p (List.mem_cons_self p rest)) hadv1)
      (fun q hq => hpos q (List.mem_cons_of_mem p hq)) hadv2

/-- C13, as stated, fails on the freshly constructed Timer itself and stays false as long
as neither `Reset()` nor `Start()` is called: after `Stop()` at counter 3 on a fresh Timer
`IsStop()` is true, `m_StopTime` is 0 and the adjusted time is the live counter. -/
theorem Timer.fresh_flag_does_not_mirror :
    ((Timer.ctor 10).run [(Call.stop, 3)]).IsStop = true ∧
    ((Timer.ctor 10).run [(Call.stop, 3)]).m_StopTime = 0 ∧
    ((Timer.ctor 10).run [(Call.stop, 3)]).GetAdjustedCurrentTime 7 = 7 ∧
    ¬ (∀ (freq : Int) (calls : List (Call × Int)),
        (((Timer.ctor freq).run calls).IsStop = true
          ↔ ((Timer.ctor freq).run calls).m_StopTime ≠ 0)) := by
  refine ⟨rfl, rfl, rfl, fun h => ?_⟩
  have h1 := (h 10 [(Call.stop, 3)]).mp rfl
  exact h1 rfl

/-- C13, amended. In every state reached by a sequence of public operations that begins
with `Reset()` or `Start()` (on a freshly constructed Timer or on any other state with
a frequency that is not negative), in which every later `Stop()` sees a positive counter
reading and every later `Advance()` is made while `IsStop()` is true, the stop flag
mirrors `m_StopTime`: `IsStop()` is true exactly when `m_StopTime` is nonzero, and a
Timer whose `IsStop()` is true reads the frozen `m_StopTime`, not the live counter. -/
theorem Timer.flag_mirrors_stop_time (tm : Timer) (first : Call × Int)
    (rest : List (Call × Int)) (hfreq : 0 ≤ tm.m_TicksPerSec)
    (hfirst : first.1 = Call.reset ∨ first.1 = Call.start)
    (hpos : ∀ p ∈ rest, p.1 = Call.stop → 0 < p.2)
    (hadv : (tm.step first.1 first.2).AdvanceOnlyStopped rest) :
    ((tm.run (first :: rest)).IsStop = true ↔ (tm.run (first :: rest)).m_StopTime ≠ 0) ∧
    ((tm.run (first :: rest)).IsStop = true →
      ∀ c : Int, (tm.run (first :: rest)).GetAdjustedCurrentTime c
        = (tm.run (first :: rest)).m_StopTime) := by
  have h0 : (tm.step first.1 first.2).Synced := by
    rcases hfirst with h | h <;> rw [h] <;> exact ⟨hfreq, Or.inl ⟨rfl, rfl⟩⟩
  have hs := Timer.run_synced (tm.step first.1 first.2) rest h0 hpos hadv
  rw [Timer.run_cons]
  obtain ⟨_, hcases⟩ := hs
  have hmirror : ((tm.step first.1 first.2).run rest).IsStop = true
      ↔ ((tm.step first.1 first.2).run rest).m_StopTime ≠ 0 := by
    rcases hcases with ⟨h1, h2⟩ | ⟨h1, h2⟩
    · simp [Timer.IsStop, h1, h2]
    · simp only [Timer.IsStop, h1, true_iff]
      omega
  refine ⟨hmirror, fun hstop c => ?_⟩
  have hne := hmirror.mp hstop
  simp [Timer.GetAdjustedCurrentTime, hne]

theorem Timer.flag_mirrors_stop_time_witness :
    (0 ≤ (Timer.ctor 10).m_TicksPerSec) ∧
    ((Timer.ctor 10).run
        [(Call.reset, 1), (Call.getTime, 2), (Call.stop, 5), (Call.advance, 6)]).IsStop = true ∧
    ((Timer.ctor 10).run
        [(Call.reset, 1), (Call.getTime, 2), (Call.stop, 5), (Call.advance, 6)]).m_StopTime ≠ 0 ∧
    ((Timer.ctor 10).run
        [(Call.reset, 1), (Call.getTime, 2), (Call.stop, 5),
          (Call.advance, 6)]).GetAdjustedCurrentTime 9
      = ((Timer.ctor 10).run
        [(Call.reset, 1), (Call.getTime, 2), (Call.stop, 5), (Call.advance, 6)]).m_StopTime := by
  have hw := Timer.flag_mirrors_stop_time (Timer.ctor 10) (Call.reset, 1)
    [(Call.getTime, 2), (Call.stop, 5), (Call.advance, 6)] (by decide) (Or.inl rfl)
    (by simp) (by simp [Timer.AdvanceOnlyStopped, Timer.step, Timer.GetTime, Timer.Stop,
      Timer.Reset, Timer.IsStop])
  exact ⟨by decide, rfl, hw.1.mp rfl, hw.2 rfl 9⟩

theorem lastControl_append_singleton (calls : List (Call × Int)) (p : Call × Int) :
    lastControl (calls ++ [p]) = if p.1.isControl = true then some p.1 else lastControl calls := by
  unfold lastControl
  rw [List.map_append, List.filter_append]
  by_cases hp : p.1.isControl = true
  · simp [hp, List.filter_cons]
  · simp [hp, List.filter_cons]

theorem Timer.run_flag (tm : Timer) (calls : List (Call × Int)) :
    (tm.run calls).IsStop = true ↔
      (lastControl calls = some Call.stop ∨ (lastControl calls = none ∧ tm.IsStop = true)) := by
  induction calls using List.reverseRecOn with
  | nil => simp [Timer.run_nil, lastControl]
  | append_singleton l p ih =>
    rw [Timer.run_append_singleton, lastControl_append_singleton]
    obtain ⟨k, c⟩ := p
    cases k <;>
      simp [Call.isControl, Timer.step, Timer.IsStop, Timer.Reset, Timer.Start,
        Timer.Advance, Timer.GetAbsoluteTime, Timer.GetTime, Timer.GetElapsedTime,
        Timer.GetValues] <;>
      first
        | exact ih
        | (simp only [Timer.Stop]; split <;> simp_all [Timer.IsStop])

/-- C15. The stop flag is a two-state machine that starts in Stopped: `IsStop()` is true
on a freshly constructed Timer; after any sequence of public calls on it `IsStop()` is
true exactly when the last call among `Reset()`/`Start()`/`Stop()` was `Stop()` or there
was no such call; and no other public call (`Advance()`, `IsStop()`, the `Get*`
queries) changes the flag, in any state. -/
theorem Timer.stop_flag_state_machine (freq : Int) :
    (Timer.ctor freq).IsStop = true ∧
    (∀ calls : List (Call × Int),
      ((Timer.ctor freq).run calls).IsStop = true ↔
        (lastControl calls = some Call.stop ∨ lastControl calls = none)) ∧
    (∀ (tm : Timer) (call : Call) (c : Int), call.isControl = false →
      (tm.step call c).IsStop = tm.IsStop) := by
  refine ⟨rfl, fun calls => ?_, fun tm call c hc => ?_⟩
  · rw [Timer.run_flag]
    simp [Timer.ctor, Timer.IsStop]
  · cases call <;> simp [Call.isControl] at hc <;> rfl

/-! ## Timer: the elapsed-time mark -/

/-- C16. `GetElapsedTime()` moves the elapsed-time mark to the adjusted time it sampled
and changes no other member; a second `GetElapsedTime()` at the same adjusted time
(the same counter reading, or any reading when `m_StopTime` is nonzero) returns
exactly 0. -/
theorem Timer.elapsed_mark_advances (tm : Timer) (c c' : Int)
    (hsame : c = c' ∨ tm.m_StopTime ≠ 0) :
    tm.GetAdjustedCurrentTime c = tm.GetAdjustedCurrentTime c' ∧
    ((tm.GetElapsedTime c).2.GetElapsedTime c').1 = 0 ∧
    (tm.GetElapsedTime c).2 = { tm with m_ElapsedTime := tm.GetAdjustedCurrentTime c } ∧
    (tm.GetElapsedTime c).2.m_IsStop = tm.m_IsStop ∧
    (tm.GetElapsedTime c).2.m_TicksPerSec = tm.m_TicksPerSec ∧
    (tm.GetElapsedTime c).2.m_StopTime = tm.m_StopTime ∧
    (tm.GetElapsedTime c).2.m_BaseTime = tm.m_BaseTime ∧
    (tm.GetElapsedTime c).2.m_InvTicksPerSec = tm.m_InvTicksPerSec := by
  have hadj : tm.GetAdjustedCurrentTime c = tm.GetAdjustedCurrentTime c' := by
    rcases hsame with h | h
    · rw [h]
    · simp [Timer.GetAdjustedCurrentTime, h]
  refine ⟨hadj, ?_, rfl, rfl, rfl, rfl, rfl, rfl⟩
  have hadj2 :
      ({ tm with m_ElapsedTime := tm.GetAdjustedCurrentTime c } : Timer).GetAdjustedCurrentTime c'
        = tm.GetAdjustedCurrentTime c := hadj.symm
  unfold Timer.GetElapsedTime
  simp only []
  rw [hadj2]
  simp

theorem Timer.elapsed_mark_advances_witness :
    (((7 : Int) = 7) ∨ ((Timer.ctor 10).Reset 1).m_StopTime ≠ 0) ∧
    (((Timer.ctor 10).Reset 1).GetElapsedTime 7).1 = 3 / 5 ∧
    ((((Timer.ctor 10).Reset 1).GetElapsedTime 7).2.GetElapsedTime 7).1 = 0 :=
  ⟨Or.inl rfl,
   by norm_num [Timer.ctor, Timer.Reset, Timer.GetElapsedTime, Timer.GetAdjustedCurrentTime],
   (Timer.elapsed_mark_advances ((Timer.ctor 10).Reset 1) 7 7 (Or.inl rfl)).2.1⟩

/-! ## Timer: relative time is never negative -/

theorem Timer.step_reciprocal (tm : Timer) (call : Call) (c : Int) :
    (tm.step call c).m_InvTicksPerSec = tm.m_InvTicksPerSec := by
  cases call <;>
    simp only [Timer.step, Timer.Reset, Timer.Start, Timer.Advance, Timer.GetAbsoluteTime,
      Timer.GetTime, Timer.GetElapsedTime, Timer.GetValues]
  simp only [Timer.Stop]
  split <;> rfl

theorem Timer.run_reciprocal (tm : Timer) (calls : List (Call × Int)) :
    (tm.run calls).m_InvTicksPerSec = tm.m_InvTicksPerSec := by
  induction calls generalizing tm with
  | nil => rfl
  | cons p rest ih =>
    rw [Timer.run_cons, ih, Timer.step_reciprocal]

theorem Timer.step_baseBounded (tm : Timer) (call : Call) (last c : Int)
    (h : tm.BaseBounded last) (hle : last ≤ c) (hna : call ≠ Call.advance) :
    (tm.step call c).BaseBounded c := by
  obtain ⟨h0, h1, h2, h3⟩ := h
  have hmono : tm.BaseBounded c := by
    refine ⟨by omega, fun hs => ?_, h2, fun hs hf => ?_⟩
    · obtain ⟨a, b, d⟩ := h1 hs
      exact ⟨a, b, by omega⟩
    · have := h3 hs hf
      omega
  cases call
  · unfold Timer.BaseBounded
    by_cases hs : tm.m_StopTime = 0
    · simp [Timer.step, Timer.Reset, Timer.GetAdjustedCurrentTime, hs]
      omega
    · obtain ⟨a, b, d⟩ := h1 hs
      simp [Timer.step, Timer.Reset, Timer.GetAdjustedCurrentTime, hs]
      omega
  · unfold Timer.BaseBounded
    cases hf : tm.m_IsStop
    · have hs : tm.m_StopTime = 0 := by
        by_contra hs
        have := (h1 hs).1
        rw [hf] at this
        exact absurd this (by decide)
      have := h3 hs hf
      simp [Timer.step, Timer.Start, hf]
      omega
    · by_cases hs : tm.m_StopTime = 0
      · have := h2 hs hf
        simp [Timer.step, Timer.Start, hf, hs]
        omega
      · obtain ⟨a, b, d⟩ := h1 hs
        simp [Timer.step, Timer.Start, hf]
        omega
  · cases hf : tm.m_IsStop
    · have hs : tm.m_StopTime = 0 := by
        by_contra hs
        have := (h1 hs).1
        rw [hf] at this
        exact absurd this (by decide)
      have := h3 hs hf
      unfold Timer.BaseBounded
      simp [Timer.step, Timer.Stop, hf]
      refine ⟨by omega, fun _ => by omega, fun hc => by omega⟩
    · have : tm.step Call.stop c = tm := by simp [Timer.step, Timer.Stop, hf]
      rw [this]
      exact hmono
  · exact absurd rfl hna
  · exact hmono
  · exact hmono
  · exact hmono
  · exact hmono
  · exact hmono

theorem Timer.baseBounded_adjusted (tm : Timer) (last c : Int) (h : tm.BaseBounded last)
    (hle : last ≤ c) : tm.m_BaseTime ≤ tm.GetAdjustedCurrentTime c := by
  obtain ⟨h0, h1, h2, h3⟩ := h
  unfold Timer.GetAdjustedCurrentTime
  by_cases hs : tm.m_StopTime = 0
  · simp only [hs, ne_eq, not_true_eq_false, if_false]
    cases hf : tm.m_IsStop
    · have := h3 hs hf
      omega
    · have := h2 hs hf
      omega
  · rw [if_pos hs]
    exact (h1 hs).2.1

theorem Timer.run_baseBounded (tm : Timer) (calls : List (Call × Int)) (last c : Int)
    (h : tm.BaseBounded last) (hna : ∀ p ∈ calls, p.1 ≠ Call.advance)
    (hmono : List.Chain (· ≤ ·) last (calls.map Prod.snd ++ [c])) :
    (tm.run calls).m_BaseTime ≤ (tm.run calls).GetAdjustedCurrentTime c := by
  induction calls generalizing tm last with
  | nil =>
    simp only [List.map_nil, List.nil_append, List.chain_cons, List.Chain.nil, and_true] at hmono
    exact Timer.baseBounded_adjusted tm last c h hmono
  | cons p rest ih =>
    rw [Timer.run_cons]
    simp only [List.map_cons, List.cons_append, List.chain_cons] at hmono
    exact ih (tm.step p.1 p.2) p.2
      (Timer.step_baseBounded tm p.1 last p.2 h hmono.1 (hna p (List.mem_cons_self p rest)))
      (fun q hq => hna q (List.mem_cons_of_mem p hq)) hmono.2

theorem Timer.ctor_baseBounded (freq : Int) : (Timer.ctor freq).BaseBounded 0 := by
  refine ⟨le_refl 0, fun hs => absurd rfl hs, fun _ _ => le_refl 0, fun _ hf => ?_⟩
  have hflag : (Timer.ctor freq).m_IsStop = true := rfl
  rw [hflag] at hf
  exact absurd hf (by decide)

/-- C17. For a freshly constructed Timer (positive frequency) driven by any sequence of
public calls without `Advance()` whose counter readings are non-negative and
non-decreasing, `m_BaseTime` never exceeds the adjusted current time at a reading not
below the last one, so `GetTime()` there does not return a negative value. -/
theorem Timer.time_never_negative (freq : Int) (calls : List (Call × Int)) (c : Int)
    (hfreq : 0 < freq) (hna : ∀ p ∈ calls, p.1 ≠ Call.advance)
    (hmono : List.Chain (· ≤ ·) 0 (calls.map Prod.snd ++ [c])) :
    ((Timer.ctor freq).run calls).m_BaseTime
      ≤ ((Timer.ctor freq).run calls).GetAdjustedCurrentTime c ∧
    0 ≤ (((Timer.ctor freq).run calls).GetTime c).1 := by
  have hb := Timer.run_baseBounded (Timer.ctor freq) calls 0 c
    (Timer.ctor_baseBounded freq) hna hmono
  refine ⟨hb, ?_⟩
  have hinv : ((Timer.ctor freq).run calls).m_InvTicksPerSec = 1 / (freq : ℚ) :=
    Timer.run_reciprocal (Timer.ctor freq) calls
  have hq : (0 : ℚ) < (freq : ℚ) := by exact_mod_cast hfreq
  simp only [Timer.GetTime]
  rw [hinv]
  apply mul_nonneg
  · have : (0 : Int) ≤ ((Timer.ctor freq).run calls).GetAdjustedCurrentTime c
        - ((Timer.ctor freq).run calls).m_BaseTime := by omega
    exact_mod_cast this
  · positivity

theorem Timer.time_never_negative_witness :
    (0 : Int) < 10 ∧
    (∀ p ∈ [(Call.start, (2 : Int)), (Call.stop, 5), (Call.getElapsedTime, 6), (Call.reset, 8)],
      p.1 ≠ Call.advance) ∧
    List.Chain (· ≤ ·) (0 : Int)
      ([(Call.start, (2 : Int)), (Call.stop, 5), (Call.getElapsedTime, 6),
        (Call.reset, 8)].map Prod.snd ++ [9]) ∧
    0 ≤ (((Timer.ctor 10).run
      [(Call.start, 2), (Call.stop, 5), (Call.getElapsedTime, 6), (Call.reset, 8)]).GetTime 9).1 :=
  ⟨by decide, by simp, by simp,
   (Timer.time_never_negative 10
     [(Call.start, 2), (Call.stop, 5), (Call.getElapsedTime, 6), (Call.reset, 8)] 9
     (by decide) (by simp) (by simp)).2⟩

/-! ## Timer: elapsed deltas over successive polls -/

/-- C18. Elapsed deltas telescope: for a Timer with `m_StopTime = 0`, elapsed-time mark
`m` and a positive frequency, and non-decreasing counter readings `m ≤ c_1 ≤ ... ≤ c_n`,
the values returned by `n` successive `GetElapsedTime()` calls at `c_1 .. c_n` sum to
`(c_n - m) / m_TicksPerSec` (to 0 when there is no call). -/
theorem Timer.elapsed_deltas_telescope (tm : Timer) (cs : List Int)
    (hcal : tm.Calibrated) (hfreq : 0 < tm.m_TicksPerSec) (hstop : tm.m_StopTime = 0)
    (hmono : List.Chain (· ≤ ·) tm.m_ElapsedTime cs) :
    (tm.elapsedSum cs).1
      = ((cs.getLastD tm.m_ElapsedTime - tm.m_ElapsedTime : Int) : ℚ)
          / (tm.m_TicksPerSec : ℚ) := by
  induction cs generalizing tm with
  | nil => simp [Timer.elapsedSum]
  | cons c rest ih =>
    simp only [List.chain_cons] at hmono
    obtain ⟨hle, hrest⟩ := hmono
    have hq : (0 : ℚ) < (tm.m_TicksPerSec : ℚ) := by exact_mod_cast hfreq
    have hadj : tm.GetAdjustedCurrentTime c = c := by
      simp [Timer.GetAdjustedCurrentTime, hstop]
    have hdelta : (0 : ℚ) ≤ ((c - tm.m_ElapsedTime : Int) : ℚ) * tm.m_InvTicksPerSec := by
      rw [hcal]
      apply mul_nonneg
      · have : (0 : Int) ≤ c - tm.m_ElapsedTime := by omega
        exact_mod_cast this
      · positivity
    have hfirst : (tm.GetElapsedTime c).1
        = ((c - tm.m_ElapsedTime : Int) : ℚ) / (tm.m_TicksPerSec : ℚ) := by
      simp only [Timer.GetElapsedTime, hadj]
      rw [if_neg (not_lt.mpr hdelta), hcal]
      ring
    have hstate : (tm.GetElapsedTime c).2 = { tm with m_ElapsedTime := c } := by
      simp only [Timer.GetElapsedTime, hadj]
    have hih := ih (tm.GetElapsedTime c).2 (by rw [hstate]; exact hcal)
      (by rw [hstate]; exact hfreq) (by rw [hstate]; exact hstop)
      (by rw [hstate]; exact hrest)
    simp only [Timer.elapsedSum]
    rw [hih, hfirst, hstate, List.getLastD_cons]
    push_cast
    ring

theorem Timer.elapsed_deltas_telescope_witness :
    ((Timer.ctor 10).Reset 1).Calibrated ∧
    0 < ((Timer.ctor 10).Reset 1).m_TicksPerSec ∧
    ((Timer.ctor 10).Reset 1).m_StopTime = 0 ∧
    List.Chain (· ≤ ·) ((Timer.ctor 10).Reset 1).m_ElapsedTime [3, 3, 8] ∧
    (((Timer.ctor 10).Reset 1).elapsedSum [3, 3, 8]).1
      = ((([3, 3, 8] : List Int).getLastD ((Timer.ctor 10).Reset 1).m_ElapsedTime
          - ((Timer.ctor 10).Reset 1).m_ElapsedTime : Int) : ℚ)
        / (((Timer.ctor 10).Reset 1).m_TicksPerSec : ℚ) :=
  ⟨rfl, by decide, rfl,
   by simp [Timer.ctor, Timer.Reset, Timer.GetAdjustedCurrentTime],
   Timer.elapsed_deltas_telescope ((Timer.ctor 10).Reset 1) [3, 3, 8] rfl (by decide) rfl
     (by simp [Timer.ctor, Timer.Reset, Timer.GetAdjustedCurrentTime])⟩

/-! ## Timer: the absolute time reported by GetValues -/

/-- C19. The `absoluteTime` output of `GetValues()` comes from the adjusted time: with
`m_StopTime = 0` it equals what `GetAbsoluteTime()` returns at the same counter reading;
with `m_StopTime` nonzero it is `m_StopTime / m_TicksPerSec` for every live counter
reading, and then differs from `GetAbsoluteTime()` whenever the live counter differs
from `m_StopTime`. -/
theorem Timer.get_values_absolute_time (tm : Timer) (c : Int)
    (hcal : tm.Calibrated) (hfreq : tm.m_TicksPerSec ≠ 0) :
    (tm.m_StopTime = 0 → (tm.GetValues c).1.absoluteTime = (tm.GetAbsoluteTime c).1) ∧
    (tm.m_StopTime ≠ 0 →
      (tm.GetValues c).1.absoluteTime = (tm.m_StopTime : ℚ) / (tm.m_TicksPerSec : ℚ) ∧
      (c ≠ tm.m_StopTime → (tm.GetValues c).1.absoluteTime ≠ (tm.GetAbsoluteTime c).1)) := by
  have hq : (tm.m_TicksPerSec : ℚ) ≠ 0 := by exact_mod_cast hfreq
  refine ⟨fun hs => ?_, fun hs => ⟨?_, fun hne heq => ?_⟩⟩
  · simp [Timer.GetValues, Timer.GetAbsoluteTime, Timer.GetAdjustedCurrentTime, hs]
  · simp only [Timer.GetValues, Timer.GetAdjustedCurrentTime, if_pos hs]
    rw [hcal]
    ring
  · simp only [Timer.GetValues, Timer.GetAbsoluteTime, Timer.GetAdjustedCurrentTime,
      if_pos hs] at heq
    rw [hcal] at heq
    have h2 : tm.m_StopTime = c := by
      field_simp at heq
      exact heq
    exact hne h2.symm

theorem Timer.get_values_absolute_time_witness :
    (((Timer.ctor 10).Reset 1).Stop 5).Calibrated ∧
    (((Timer.ctor 10).Reset 1).Stop 5).m_TicksPerSec ≠ 0 ∧
    (((Timer.ctor 10).Reset 1).Stop 5).m_StopTime ≠ 0 ∧
    (9 : Int) ≠ (((Timer.ctor 10).Reset 1).Stop 5).m_StopTime ∧
    ((((Timer.ctor 10).Reset 1).Stop 5).GetValues 9).1.absoluteTime
      = ((((Timer.ctor 10).Reset 1).Stop 5).m_StopTime : ℚ)
        / ((((Timer.ctor 10).Reset 1).Stop 5).m_TicksPerSec : ℚ) ∧
    ((((Timer.ctor 10).Reset 1).Stop 5).GetValues 9).1.absoluteTime
      ≠ ((((Timer.ctor 10).Reset 1).Stop 5).GetAbsoluteTime 9).1 ∧
    (((Timer.ctor 10).Reset 1).GetValues 9).1.absoluteTime
      = (((Timer.ctor 10).Reset 1).GetAbsoluteTime 9).1 := by
  have hs : (((Timer.ctor 10).Reset 1).Stop 5).m_StopTime ≠ 0 := by
    simp [Timer.ctor, Timer.Reset, Timer.Stop]
  have hf : (((Timer.ctor 10).Reset 1).Stop 5).m_TicksPerSec ≠ 0 := by
    simp [Timer.ctor, Timer.Reset, Timer.Stop]
  have hc : (9 : Int) ≠ (((Timer.ctor 10).Reset 1).Stop 5).m_StopTime := by
    simp [Timer.ctor, Timer.Reset, Timer.Stop]
  have hw := Timer.get_values_absolute_time (((Timer.ctor 10).Reset 1).Stop 5) 9 rfl hf
  have hw2 := Timer.get_values_absolute_time ((Timer.ctor 10).Reset 1) 9 rfl
    (by simp [Timer.ctor, Timer.Reset])
  exact ⟨rfl, hf, hs, hc, (hw.2 hs).1, (hw.2 hs).2 hc, hw2.1 rfl⟩

end asdx
